import Mathlib

/-!
# OTTO tape buffer (`src/util/tapebuffer.cpp`)

A shallow embedding of `TapeBuffer`: the seek operations (`movePlaypointAbs`,
`movePlaypointRel`, `goTo`), the consuming reads (`readFW`, `readAllFW`,
`readBW`, `readAllBW`), the write stubs (`writeFW`, `writeBW`) and the body of the
disk worker loop of `threadRoutine` (a forward refill step followed by a backward
refill step).

Conventions of the embedding.

* Every local variable, parameter and cast that the source declares as `int`
  or `uint` is a 32 bit machine integer: its value is an `Int` passed through
  `toInt32` or `toUInt32` at the place of the declaration, parameter passing
  or cast.
* The header `tapebuffer.h` is not part of the sources at hand.  The fields of
  the ring buffer and of the tape buffer are therefore kept as plain integers,
  and the constants `SIZE`, `MIN_READ_SIZE` and `sizeof(AudioFrame)` are the
  fields of a `Config` record.
* The two threads are interleaved at the granularity of whole operations.
-/

namespace OTTO

/-! ## Machine integers -/

/-- Value of an integer after conversion to the C++ type `uint` (32 bit). -/
def toUInt32 (x : Int) : Int := x % 4294967296

/-- Value of an integer after conversion to the C++ type `int`
(32 bit, two's complement). -/
def toInt32 (x : Int) : Int := (x + 2147483648) % 4294967296 - 2147483648

/-! ## Audio frames -/

/-- One sample.  The source stores `float`s and only ever copies them (it never
computes with them), so a sample is represented by an integer code, with `0`
for the all-zero bytes `memset` writes. -/
abbrev Sample := Int

/-- The frame type `AudioFrame`: the source builds it from four samples
(`AudioFrame{{f0, f1, f2, f3}}`). -/
structure AudioFrame where
  c0 : Sample
  c1 : Sample
  c2 : Sample
  c3 : Sample
deriving DecidableEq, Repr

/-- Modelled from the spec: `AudioFrame::operator[]` (declared in the missing
header), the sample of one channel.  An index outside `0..3` is out of bounds in
the source; the model answers `0` there. -/
def AudioFrame.get (a : AudioFrame) (k : Int) : Sample :=
  if k = 0 then a.c0 else if k = 1 then a.c1 else if k = 2 then a.c2
  else if k = 3 then a.c3 else 0

/-- The all-zero frame (silence). -/
def AudioFrame.silence : AudioFrame := ⟨0, 0, 0, 0⟩

/-- Modelled from the spec: the channel count `nTracks` (declared in the missing
header), "a fixed configuration value, e.g. 4"; the source reads four channels
per frame out of the interleaved frame buffer. -/
def nTracks : Nat := 4

/-! ## Configuration constants and the ring buffer -/

/-- The compile-time constants the source takes from the missing header:
`buffer.SIZE` (capacity), `sizeof(AudioFrame)` (headroom) and `MIN_READ_SIZE`
(low-water mark). -/
structure Config where
  SIZE : Nat
  sizeofAudioFrame : Nat
  MIN_READ_SIZE : Nat
deriving DecidableEq, Repr

/-- The ring buffer `TapeBuffer::buffer`. -/
structure RingBuffer where
  data : Int → AudioFrame
  playIdx : Int
  posAt0 : Int
  lengthFW : Int
  lengthBW : Int
  notWritten : Bool

/-- Modelled from the spec: `RingBuffer::wrapIdx` (declared in the missing
header), "ring slot / wrap index: absolute index mod capacity". -/
def wrapIdx (c : Config) (index : Int) : Int := index % (c.SIZE : Int)

/-- Modelled from the spec: reading `buffer[i]` (`RingBuffer::operator[]`,
declared in the missing header): the frame in slot `i mod capacity`. -/
def RingBuffer.get (c : Config) (b : RingBuffer) (i : Int) : AudioFrame :=
  b.data (wrapIdx c i)

/-- Modelled from the spec: the assignment `buffer[i] = frame`
(`RingBuffer::operator[]`, declared in the missing header): overwrites slot
`i mod capacity` and touches no counter. -/
def RingBuffer.set (c : Config) (b : RingBuffer) (i : Int) (f : AudioFrame) :
    RingBuffer :=
  { b with data := Function.update b.data (wrapIdx c i) f }

/-- The state of a `TapeBuffer`: the play position and the ring buffer. -/
structure TapeBuffer where
  playPoint : Int
  buffer : RingBuffer

/-! ## Seeking -/

/-- `TapeBuffer::movePlaypointAbs(int newPos)`. -/
def TapeBuffer.movePlaypointAbs (c : Config) (t : TapeBuffer) (newPos : Int) :
    TapeBuffer :=
  let newPos := if newPos < 0 then 0 else newPos
  let oldPos := toUInt32 t.playPoint
  let diff := toInt32 (newPos - oldPos)
  let b := t.buffer
  let b1 : RingBuffer :=
    if diff ≤ b.lengthFW ∧ diff ≥ -b.lengthBW then
      { b with
        playIdx := wrapIdx c (newPos - b.posAt0)
        lengthBW := b.lengthBW + diff
        lengthFW := b.lengthFW - diff }
    else
      { b with lengthBW := 0, lengthFW := 0 }
  { playPoint := newPos
    buffer := { b1 with posAt0 := newPos - b1.playIdx } }

/-- `TapeBuffer::movePlaypointRel(int time)`: the argument `playPoint + time`
is converted to the `int` parameter of `movePlaypointAbs`. -/
def TapeBuffer.movePlaypointRel (c : Config) (t : TapeBuffer) (time : Int) :
    TapeBuffer :=
  t.movePlaypointAbs c (toInt32 (t.playPoint + time))

/-- `TapeBuffer::goTo(uint pos)`: the `uint` argument is converted to the `int`
parameter of `movePlaypointAbs`. -/
def TapeBuffer.goTo (c : Config) (t : TapeBuffer) (pos : Int) : TapeBuffer :=
  t.movePlaypointAbs c (toInt32 pos)

/-! ## Consuming reads -/

/-- `TapeBuffer::readFW(uint nframes, uint track)`: the samples returned and the
state afterwards. -/
def TapeBuffer.readFW (c : Config) (t : TapeBuffer) (nframes track : Int) :
    List Sample × TapeBuffer :=
  let n := toUInt32 (min t.buffer.lengthFW (toInt32 nframes))
  let ret := (List.range n.toNat).map fun (i : Nat) =>
    (t.buffer.get c (t.buffer.playIdx + (i : Int))).get (toUInt32 (track - 1))
  (ret, t.movePlaypointRel c (toInt32 n))

/-- `TapeBuffer::readAllFW(uint nframes)`. -/
def TapeBuffer.readAllFW (c : Config) (t : TapeBuffer) (nframes : Int) :
    List AudioFrame × TapeBuffer :=
  let n := if nframes > toUInt32 t.buffer.lengthFW then toUInt32 t.buffer.lengthFW
    else nframes
  let ret := (List.range n.toNat).map fun (i : Nat) =>
    t.buffer.get c (t.buffer.playIdx + (i : Int))
  (ret, t.movePlaypointRel c (toInt32 n))

/-- `TapeBuffer::readBW(uint nframes, uint track)`. -/
def TapeBuffer.readBW (c : Config) (t : TapeBuffer) (nframes track : Int) :
    List Sample × TapeBuffer :=
  let n := if nframes > toUInt32 t.buffer.lengthBW then toUInt32 t.buffer.lengthBW
    else nframes
  let ret := (List.range n.toNat).map fun (i : Nat) =>
    (t.buffer.get c (t.buffer.playIdx - (i : Int))).get (toUInt32 (track - 1))
  (ret, t.movePlaypointRel c (toInt32 (toUInt32 (-n))))

/-- `TapeBuffer::readAllBW(uint nframes)`. -/
def TapeBuffer.readAllBW (c : Config) (t : TapeBuffer) (nframes : Int) :
    List AudioFrame × TapeBuffer :=
  let n := if nframes > toUInt32 t.buffer.lengthBW then toUInt32 t.buffer.lengthBW
    else nframes
  let ret := (List.range n.toNat).map fun (i : Nat) =>
    t.buffer.get c (t.buffer.playIdx - (i : Int))
  (ret, t.movePlaypointRel c (toInt32 (toUInt32 (-n))))

/-! ## Writing -/

/-- `TapeBuffer::writeFW(std::vector<float> data, uint track)`: the body is
`return 0;` (the rest is commented out); the value returned and the state
afterwards. -/
def TapeBuffer.writeFW (t : TapeBuffer) (_data : List Sample) (_track : Int) :
    Int × TapeBuffer :=
  (0, t)

/-- `TapeBuffer::writeBW(std::vector<float> data, uint track)`: the body is
`return 0;` (the rest is commented out). -/
def TapeBuffer.writeBW (t : TapeBuffer) (_data : List Sample) (_track : Int) :
    Int × TapeBuffer :=
  (0, t)

/-! ## The backing file and the disk worker -/

/-- Modelled from the spec: the backing file behind the `SndfileHandle` (an
external library): a sequence of frames, read by absolute frame position. -/
structure SndFile where
  frames : List AudioFrame

/-- Modelled from the spec: the frame of the file at an absolute position,
silence outside the range of the file ("relies on zero-fill for out-of-range
reads"). -/
def SndFile.frameAt (f : SndFile) (p : Int) : AudioFrame :=
  if p < 0 then AudioFrame.silence else f.frames.getD p.toNat AudioFrame.silence

/-- Modelled from the spec: the content of `framebuf` after `snd.seek(pos)`,
`memset(framebuf, 0, ...)` and `snd.readf(framebuf, nframes)`: `nframes` frames
of `nTracks` interleaved samples, zero where the file has no frame. -/
def SndFile.readf (f : SndFile) (pos : Int) (nframes : Int) (k : Nat) : Sample :=
  if (k : Int) < nframes * (nTracks : Int) then
    (f.frameAt (pos + ((k / nTracks : Nat) : Int))).get ((k % nTracks : Nat) : Int)
  else 0

/-- One positioned read request issued to the file. -/
structure DiskRead where
  pos : Int
  nframes : Int
deriving DecidableEq, Repr

/-- The frame the refill loops build from `framebuf` at loop index `i`. -/
def frameOfBuf (framebuf : Nat → Sample) (i : Nat) : AudioFrame :=
  ⟨framebuf (nTracks * i), framebuf (nTracks * i + 1),
   framebuf (nTracks * i + 2), framebuf (nTracks * i + 3)⟩

/-- The copy loop `for (uint i = 0; i < nframes; i++) buffer[startIdx + i] = ...`
of both refill steps. -/
def fillFrames (c : Config) (b : RingBuffer) (startIdx : Int)
    (framebuf : Nat → Sample) (nframes : Int) : RingBuffer :=
  (List.range nframes.toNat).foldl
    (fun (b : RingBuffer) (i : Nat) =>
      b.set c (startIdx + (i : Int)) (frameOfBuf framebuf i)) b

/-- The local `int desLength = buffer.SIZE / 2 - sizeof(AudioFrame)` of the
worker loop. -/
def desLength (c : Config) : Int :=
  toInt32 (((c.SIZE / 2 : Nat) : Int) - (c.sizeofAudioFrame : Int))

/-- The forward refill step of the worker loop (first `if` of the loop body):
the state afterwards and the reads issued to the file. -/
def TapeBuffer.refillFW (c : Config) (f : SndFile) (t : TapeBuffer) :
    TapeBuffer × List DiskRead :=
  let b := t.buffer
  if b.lengthFW < desLength c - (c.MIN_READ_SIZE : Int) then
    let startIdx := toUInt32 (b.playIdx + b.lengthFW)
    let seekPos := b.posAt0 + startIdx
    let nframes := toUInt32 (desLength c - b.lengthFW)
    let framebuf := f.readf seekPos nframes
    let b1 := fillFrames c b startIdx framebuf nframes
    let b2 := { b1 with lengthFW := b1.lengthFW + nframes }
    let overflow := toInt32 (b2.lengthFW + b2.lengthBW - (c.SIZE : Int))
    let b3 := if overflow > 0 then { b2 with lengthBW := b2.lengthBW - overflow } else b2
    ({ t with buffer := b3 }, [⟨seekPos, nframes⟩])
  else (t, [])

/-- The backward refill step of the worker loop (second `if` of the loop
body). -/
def TapeBuffer.refillBW (c : Config) (f : SndFile) (t : TapeBuffer) :
    TapeBuffer × List DiskRead :=
  let b := t.buffer
  if b.lengthBW < desLength c - (c.MIN_READ_SIZE : Int) then
    let nframes := toUInt32 (desLength c - b.lengthBW)
    let startIdx := toInt32 (b.playIdx - b.lengthBW - nframes)
    let seekPos := b.posAt0 + startIdx
    let framebuf := f.readf seekPos nframes
    let b1 := fillFrames c b startIdx framebuf nframes
    let b2 := { b1 with lengthBW := b1.lengthBW + nframes }
    let overflow := toInt32 (b2.lengthFW + b2.lengthBW - (c.SIZE : Int))
    let b3 := if overflow > 0 then { b2 with lengthFW := b2.lengthFW - overflow } else b2
    ({ t with buffer := b3 }, [⟨seekPos, nframes⟩])
  else (t, [])

/-- One pass through the body of the worker loop `while (GLOB.running)`: the
forward step, then the backward step. -/
def TapeBuffer.workerCycle (c : Config) (f : SndFile) (t : TapeBuffer) :
    TapeBuffer × List DiskRead :=
  let r1 := t.refillFW c f
  let r2 := r1.1.refillBW c f
  (r2.1, r1.2 ++ r2.2)

/-! ## Reachable states and invariants -/

/-- The count invariant of the ring buffer. -/
def CountInv (c : Config) (t : TapeBuffer) : Prop :=
  0 ≤ t.buffer.lengthFW ∧ 0 ≤ t.buffer.lengthBW ∧
    t.buffer.lengthFW + t.buffer.lengthBW ≤ (c.SIZE : Int)

/-- The states reachable from an initial state (play position 0, both counts 0)
by seeks, reads, single refill steps and whole worker cycles, with arbitrary
arguments and an arbitrary backing file. -/
inductive Reachable (c : Config) : TapeBuffer → Prop
  | init (t : TapeBuffer) (hp : t.playPoint = 0) (hf : t.buffer.lengthFW = 0)
      (hb : t.buffer.lengthBW = 0) : Reachable c t
  | movePlaypointAbs (t : TapeBuffer) (newPos : Int) (h : Reachable c t) :
      Reachable c (t.movePlaypointAbs c newPos)
  | movePlaypointRel (t : TapeBuffer) (time : Int) (h : Reachable c t) :
      Reachable c (t.movePlaypointRel c time)
  | goTo (t : TapeBuffer) (pos : Int) (h : Reachable c t) :
      Reachable c (t.goTo c pos)
  | readFW (t : TapeBuffer) (nframes track : Int) (h : Reachable c t) :
      Reachable c (t.readFW c nframes track).2
  | readAllFW (t : TapeBuffer) (nframes : Int) (h : Reachable c t) :
      Reachable c (t.readAllFW c nframes).2
  | readBW (t : TapeBuffer) (nframes track : Int) (h : Reachable c t) :
      Reachable c (t.readBW c nframes track).2
  | readAllBW (t : TapeBuffer) (nframes : Int) (h : Reachable c t) :
      Reachable c (t.readAllBW c nframes).2
  | refillFW (t : TapeBuffer) (f : SndFile) (h : Reachable c t) :
      Reachable c (t.refillFW c f).1
  | refillBW (t : TapeBuffer) (f : SndFile) (h : Reachable c t) :
      Reachable c (t.refillBW c f).1
  | worker (t : TapeBuffer) (f : SndFile) (h : Reachable c t) :
      Reachable c (t.workerCycle c f).1

/-- The invariant tying the ring to absolute positions: slot `playIdx` stands for
the play position. -/
def PosInv (t : TapeBuffer) : Prop :=
  t.buffer.posAt0 + t.buffer.playIdx = t.playPoint

/-! ## Example configuration and states -/

/-- The configuration of the end-to-end scenario of the specification:
capacity 1000, headroom 64; the low-water mark is taken as 32. -/
def exampleConfig : Config := ⟨1000, 64, 32⟩

/-- A ring whose slot `k` holds the frame with all four channels equal to
`k`. -/
def rampData (k : Int) : AudioFrame := ⟨k, k, k, k⟩

/-- The initial state: play position 0, empty windows. -/
def initialState : TapeBuffer := ⟨0, ⟨rampData, 0, 0, 0, 0, false⟩⟩

/-- A file of three frames. -/
def exampleFile : SndFile := ⟨[⟨1, 2, 3, 4⟩, ⟨5, 6, 7, 8⟩, ⟨9, 10, 11, 12⟩]⟩

/-- A file of 2000 frames; frame `k` holds the samples `k`, `k + 1`, `k + 2`,
`k + 3`. -/
def longFile : SndFile :=
  ⟨(List.range 2000).map
    (fun (k : Nat) => ⟨(k : Int), (k : Int) + 1, (k : Int) + 2, (k : Int) + 3⟩)⟩

/-- A state with a cached window on both sides: play position 110 in slot 110,
100 frames ahead and 10 behind. -/
def windowState : TapeBuffer := ⟨110, ⟨rampData, 110, 0, 100, 10, false⟩⟩

/-- A state close to position 0: play position 5, 10 frames cached on each
side. -/
def nearStartState : TapeBuffer := ⟨5, ⟨rampData, 5, 0, 10, 10, false⟩⟩

/-- The state after seeking to 0, one worker cycle on the example file, a forward
read of 100 frames on track 1 and a backward read of 7 frames on track 2. -/
def sampleRun : TapeBuffer :=
  ((((initialState.movePlaypointAbs exampleConfig 0).workerCycle exampleConfig
    exampleFile).1.readFW exampleConfig 100 1).2.readBW exampleConfig 7 2).2

/-- A state late on the tape: play position `2^31 - 2` (in slot 646 of a ring of
1000 slots), 10 frames cached ahead. -/
def lateState : TapeBuffer :=
  ⟨2147483646, ⟨rampData, 646, 2147483000, 10, 0, false⟩⟩

/-! ## Auxiliary lemmas -/

theorem fillFrames_lengthFW (c : Config) (b : RingBuffer) (s : Int)
    (fb : Nat → Sample) (n : Int) :
    (fillFrames c b s fb n).lengthFW = b.lengthFW := by
  unfold fillFrames
  generalize List.range n.toNat = l
  induction l generalizing b with
  | nil => rfl
  | cons a l ih => simp only [List.foldl_cons]; rw [ih]; rfl

theorem fillFrames_lengthBW (c : Config) (b : RingBuffer) (s : Int)
    (fb : Nat → Sample) (n : Int) :
    (fillFrames c b s fb n).lengthBW = b.lengthBW := by
  unfold fillFrames
  generalize List.range n.toNat = l
  induction l generalizing b with
  | nil => rfl
  | cons a l ih => simp only [List.foldl_cons]; rw [ih]; rfl

theorem fillFrames_playIdx (c : Config) (b : RingBuffer) (s : Int)
    (fb : Nat → Sample) (n : Int) :
    (fillFrames c b s fb n).playIdx = b.playIdx := by
  unfold fillFrames
  generalize List.range n.toNat = l
  induction l generalizing b with
  | nil => rfl
  | cons a l ih => simp only [List.foldl_cons]; rw [ih]; rfl

theorem fillFrames_posAt0 (c : Config) (b : RingBuffer) (s : Int)
    (fb : Nat → Sample) (n : Int) :
    (fillFrames c b s fb n).posAt0 = b.posAt0 := by
  unfold fillFrames
  generalize List.range n.toNat = l
  induction l generalizing b with
  | nil => rfl
  | cons a l ih => simp only [List.foldl_cons]; rw [ih]; rfl

/-- A seek keeps the count invariant (fast path: the sum is unchanged; slow
path: both counts are reset). -/
theorem movePlaypointAbs_countInv (c : Config) (t : TapeBuffer) (newPos : Int)
    (h : CountInv c t) : CountInv c (t.movePlaypointAbs c newPos) := by
  unfold CountInv at *
  unfold TapeBuffer.movePlaypointAbs
  simp only
  split_ifs with h1 <;> simp only <;> omega

theorem movePlaypointRel_countInv (c : Config) (t : TapeBuffer) (time : Int)
    (h : CountInv c t) : CountInv c (t.movePlaypointRel c time) :=
  movePlaypointAbs_countInv c t _ h

/-- The forward refill step keeps the count invariant. -/
theorem refillFW_countInv (c : Config) (hS : c.SIZE < 2147483648)
    (hA : c.sizeofAudioFrame < 2147483648) (f : SndFile) (t : TapeBuffer)
    (h : CountInv c t) : CountInv c (t.refillFW c f).1 := by
  unfold CountInv at *
  unfold TapeBuffer.refillFW
  simp only
  split_ifs with h1 h2
  · simp only [fillFrames_lengthFW, fillFrames_lengthBW] at h2 ⊢
    unfold desLength toInt32 toUInt32 at *
    omega
  · simp only [fillFrames_lengthFW, fillFrames_lengthBW] at h2 ⊢
    unfold desLength toInt32 toUInt32 at *
    omega
  · exact h

/-- The backward refill step keeps the count invariant. -/
theorem refillBW_countInv (c : Config) (hS : c.SIZE < 2147483648)
    (hA : c.sizeofAudioFrame < 2147483648) (f : SndFile) (t : TapeBuffer)
    (h : CountInv c t) : CountInv c (t.refillBW c f).1 := by
  unfold CountInv at *
  unfold TapeBuffer.refillBW
  simp only
  split_ifs with h1 h2
  · simp only [fillFrames_lengthFW, fillFrames_lengthBW] at h2 ⊢
    unfold desLength toInt32 toUInt32 at *
    omega
  · simp only [fillFrames_lengthFW, fillFrames_lengthBW] at h2 ⊢
    unfold desLength toInt32 toUInt32 at *
    omega
  · exact h

theorem workerCycle_countInv (c : Config) (hS : c.SIZE < 2147483648)
    (hA : c.sizeofAudioFrame < 2147483648) (f : SndFile) (t : TapeBuffer)
    (h : CountInv c t) : CountInv c (t.workerCycle c f).1 :=
  refillBW_countInv c hS hA f _ (refillFW_countInv c hS hA f t h)

/-- The state a seek inside the cached window produces. -/
theorem movePlaypointAbs_inWindow (c : Config) (t : TapeBuffer) (newPos : Int)
    (hp0 : 0 ≤ t.playPoint) (hp1 : t.playPoint < 2147483648)
    (hn0 : 0 ≤ newPos) (hn1 : newPos < 2147483648)
    (hlo : -t.buffer.lengthBW ≤ newPos - t.playPoint)
    (hhi : newPos - t.playPoint ≤ t.buffer.lengthFW) :
    t.movePlaypointAbs c newPos =
      { playPoint := newPos
        buffer := { t.buffer with
          playIdx := wrapIdx c (newPos - t.buffer.posAt0)
          lengthBW := t.buffer.lengthBW + (newPos - t.playPoint)
          lengthFW := t.buffer.lengthFW - (newPos - t.playPoint)
          posAt0 := newPos - wrapIdx c (newPos - t.buffer.posAt0) } } := by
  have hdiff : toInt32 ((if newPos < 0 then 0 else newPos) - toUInt32 t.playPoint)
      = newPos - t.playPoint := by
    unfold toInt32 toUInt32
    split_ifs <;> omega
  have hclamp : (if newPos < 0 then 0 else newPos) = newPos := by
    split_ifs <;> omega
  rw [hclamp] at hdiff
  unfold TapeBuffer.movePlaypointAbs
  simp only [hclamp, hdiff]
  rw [if_pos ⟨hhi, hlo⟩]

/-- The state a relative move by `k ≥ 0` frames inside the forward window
produces. -/
theorem movePlaypointRel_forward (c : Config) (t : TapeBuffer) (k : Int)
    (hk0 : 0 ≤ k) (hk : k ≤ t.buffer.lengthFW) (hbw : -k ≤ t.buffer.lengthBW)
    (hp0 : 0 ≤ t.playPoint) (hov : t.playPoint + k < 2147483648) :
    t.movePlaypointRel c (toInt32 k) =
      { playPoint := t.playPoint + k
        buffer := { t.buffer with
          playIdx := wrapIdx c (t.playPoint + k - t.buffer.posAt0)
          lengthBW := t.buffer.lengthBW + k
          lengthFW := t.buffer.lengthFW - k
          posAt0 := t.playPoint + k - wrapIdx c (t.playPoint + k - t.buffer.posAt0) } } := by
  have h1 : toInt32 (t.playPoint + toInt32 k) = t.playPoint + k := by
    unfold toInt32; omega
  unfold TapeBuffer.movePlaypointRel
  rw [h1, movePlaypointAbs_inWindow c t _ hp0 (by omega) (by omega) hov (by omega) (by omega)]
  have h2 : t.playPoint + k - t.playPoint = k := by omega
  rw [h2]

/-- The count `n` computed by `readFW` when the request fits the type `int`. -/
theorem readFW_count (lengthFW nframes : Int) (h0 : 0 ≤ nframes)
    (h1 : nframes < 2147483648) (hf0 : 0 ≤ lengthFW) :
    toUInt32 (min lengthFW (toInt32 nframes)) = min nframes lengthFW := by
  unfold toUInt32 toInt32; omega

/-- The count `n` computed by `readAllFW`, `readBW` and `readAllBW`. -/
theorem readAll_count (len nframes : Int) (hf0 : 0 ≤ len)
    (hf1 : len < 2147483648) :
    (if nframes > toUInt32 len then toUInt32 len else nframes) = min nframes len := by
  unfold toUInt32; split_ifs <;> omega

/-- Two ring indices less than a capacity apart fall into different slots. -/
theorem wrapIdx_ne (c : Config) (a b : Int) (h0 : 0 < b - a)
    (h1 : b - a < (c.SIZE : Int)) : wrapIdx c a ≠ wrapIdx c b := by
  unfold wrapIdx
  intro h
  have h2 : (b - a) % (c.SIZE : Int) = 0 :=
    Int.emod_eq_emod_iff_emod_sub_eq_zero.mp h.symm
  rw [Int.emod_eq_of_lt (by omega) h1] at h2
  omega

/-- A ring slot is a valid index when the capacity is positive. -/
theorem wrapIdx_range (c : Config) (hS : 0 < c.SIZE) (a : Int) :
    0 ≤ wrapIdx c a ∧ wrapIdx c a < (c.SIZE : Int) := by
  unfold wrapIdx
  have hpos : (0 : Int) < (c.SIZE : Int) := by omega
  exact ⟨Int.emod_nonneg _ (by omega), Int.emod_lt_of_pos _ hpos⟩

/-- The copy loop, unrolled by one iteration at the end. -/
theorem fillFrames_succ (c : Config) (b : RingBuffer) (s : Int)
    (fb : Nat → Sample) (m : Nat) :
    fillFrames c b s fb ((m + 1 : Nat) : Int)
      = (fillFrames c b s fb (m : Int)).set c (s + (m : Int)) (frameOfBuf fb m) := by
  unfold fillFrames
  simp only [Int.toNat_ofNat, List.range_succ, List.foldl_append, List.foldl_cons,
    List.foldl_nil]

/-- A slot that the copy loop does not address keeps its frame. -/
theorem fillFrames_data_other (c : Config) (b : RingBuffer) (s : Int)
    (fb : Nat → Sample) (m : Nat) (j : Int)
    (hj : ∀ i : Nat, i < m → wrapIdx c (s + (i : Int)) ≠ j) :
    (fillFrames c b s fb (m : Int)).data j = b.data j := by
  induction m with
  | zero => rfl
  | succ m ih =>
    rw [fillFrames_succ]
    unfold RingBuffer.set
    simp only
    rw [Function.update_noteq (hj m (by omega)).symm]
    exact ih (fun i hi => hj i (by omega))

/-- After the copy loop over at most `SIZE` frames, the slot addressed at loop
index `i` holds the frame built at index `i`. -/
theorem fillFrames_data_written (c : Config) (b : RingBuffer) (s : Int)
    (fb : Nat → Sample) (m : Nat) (hm : m ≤ c.SIZE) (i : Nat) (hi : i < m) :
    (fillFrames c b s fb (m : Int)).data (wrapIdx c (s + (i : Int)))
      = frameOfBuf fb i := by
  induction m with
  | zero => omega
  | succ m ih =>
    rw [fillFrames_succ]
    unfold RingBuffer.set
    simp only
    by_cases h : i = m
    · subst h
      rw [Function.update_same]
    · have hlt : i < m := by omega
      rw [Function.update_noteq (wrapIdx_ne c _ _ (by omega) (by omega))]
      exact ih (by omega) hlt

/-- A frame is determined by its four channels. -/
theorem AudioFrame.eq_of_get (a : AudioFrame) :
    (⟨a.get 0, a.get 1, a.get 2, a.get 3⟩ : AudioFrame) = a := by
  cases a
  rfl

/-- The frame the refill loop builds at index `i < nframes` from the buffer
filled by a positioned read is the frame of the file at `pos + i`. -/
theorem frameOfBuf_readf (f : SndFile) (pos nframes : Int) (i : Nat)
    (hi : (i : Int) < nframes) :
    frameOfBuf (f.readf pos nframes) i = f.frameAt (pos + (i : Int)) := by
  unfold frameOfBuf SndFile.readf nTracks
  have e0 : (4 * i) / 4 = i := by omega
  have e1 : (4 * i + 1) / 4 = i := by omega
  have e2 : (4 * i + 2) / 4 = i := by omega
  have e3 : (4 * i + 3) / 4 = i := by omega
  have m0 : (4 * i) % 4 = 0 := by omega
  have m1 : (4 * i + 1) % 4 = 1 := by omega
  have m2 : (4 * i + 2) % 4 = 2 := by omega
  have m3 : (4 * i + 3) % 4 = 3 := by omega
  rw [if_pos (by push_cast; omega), if_pos (by push_cast; omega),
    if_pos (by push_cast; omega), if_pos (by push_cast; omega)]
  rw [e0, e1, e2, e3, m0, m1, m2, m3]
  exact AudioFrame.eq_of_get _

/-- The file has silence at every position past its last frame and before its
first. -/
theorem frameAt_outside (f : SndFile) (p : Int)
    (hp : p < 0 ∨ (f.frames.length : Int) ≤ p) : f.frameAt p = AudioFrame.silence := by
  unfold SndFile.frameAt
  split_ifs with h
  · rfl
  · have hlen : f.frames.length ≤ p.toNat := by omega
    simp [List.getD_eq_getElem?_getD, List.getElem?_eq_none hlen]

/-- The desired window length when the constants fit the type `int`:
`SIZE / 2 - sizeof(AudioFrame)`. -/
theorem desLength_eq (c : Config) (hS : c.SIZE < 2147483648)
    (hA : c.sizeofAudioFrame < 2147483648) :
    desLength c = ((c.SIZE / 2 : Nat) : Int) - (c.sizeofAudioFrame : Int) := by
  unfold desLength toInt32; omega

/-- The forward refill step when it fires: the read it issues and every field of
the state afterwards. -/
theorem refillFW_triggered (c : Config) (f : SndFile) (t : TapeBuffer)
    (hS : c.SIZE < 2147483648) (hA : c.sizeofAudioFrame < 2147483648)
    (hinv : CountInv c t) (hi0 : 0 ≤ t.buffer.playIdx)
    (hi1 : t.buffer.playIdx < 2147483648)
    (htrig : t.buffer.lengthFW < desLength c - (c.MIN_READ_SIZE : Int)) :
    (t.refillFW c f).2
      = [⟨t.buffer.posAt0 + (t.buffer.playIdx + t.buffer.lengthFW),
          desLength c - t.buffer.lengthFW⟩] ∧
    (t.refillFW c f).1.playPoint = t.playPoint ∧
    (t.refillFW c f).1.buffer.lengthFW = desLength c ∧
    (t.refillFW c f).1.buffer.lengthBW
      = t.buffer.lengthBW - max 0 (desLength c + t.buffer.lengthBW - (c.SIZE : Int)) ∧
    (t.refillFW c f).1.buffer.playIdx = t.buffer.playIdx ∧
    (t.refillFW c f).1.buffer.posAt0 = t.buffer.posAt0 ∧
    (t.refillFW c f).1.buffer.data
      = (fillFrames c t.buffer (t.buffer.playIdx + t.buffer.lengthFW)
          (f.readf (t.buffer.posAt0 + (t.buffer.playIdx + t.buffer.lengthFW))
            (desLength c - t.buffer.lengthFW))
          (desLength c - t.buffer.lengthFW)).data := by
  have hd := desLength_eq c hS hA
  unfold CountInv at hinv
  have hstart : toUInt32 (t.buffer.playIdx + t.buffer.lengthFW)
      = t.buffer.playIdx + t.buffer.lengthFW := by
    unfold toUInt32; omega
  have hn : toUInt32 (desLength c - t.buffer.lengthFW)
      = desLength c - t.buffer.lengthFW := by
    unfold toUInt32; omega
  have hov : toInt32 (t.buffer.lengthFW + (desLength c - t.buffer.lengthFW)
      + t.buffer.lengthBW - (c.SIZE : Int))
      = desLength c + t.buffer.lengthBW - (c.SIZE : Int) := by
    unfold toInt32; omega
  unfold TapeBuffer.refillFW
  simp only
  rw [if_pos htrig]
  simp only [hstart, hn, fillFrames_lengthFW, fillFrames_lengthBW, hov]
  split_ifs with h2
  · simp only [fillFrames_playIdx, fillFrames_posAt0]
    refine ⟨trivial, trivial, by omega, by omega, trivial, trivial, trivial⟩
  · simp only [fillFrames_lengthFW, fillFrames_lengthBW, fillFrames_playIdx,
      fillFrames_posAt0]
    refine ⟨trivial, trivial, by omega, by omega, trivial, trivial, trivial⟩

/-- The backward refill step when it fires: the read it issues and every field
of the state afterwards. -/
theorem refillBW_triggered (c : Config) (f : SndFile) (t : TapeBuffer)
    (hS : c.SIZE < 2147483648) (hA : c.sizeofAudioFrame < 2147483648)
    (hinv : CountInv c t) (hi0 : 0 ≤ t.buffer.playIdx)
    (hi1 : t.buffer.playIdx < 2147483648)
    (htrig : t.buffer.lengthBW < desLength c - (c.MIN_READ_SIZE : Int)) :
    (t.refillBW c f).2
      = [⟨t.buffer.posAt0 + (t.buffer.playIdx - desLength c),
          desLength c - t.buffer.lengthBW⟩] ∧
    (t.refillBW c f).1.playPoint = t.playPoint ∧
    (t.refillBW c f).1.buffer.lengthBW = desLength c ∧
    (t.refillBW c f).1.buffer.lengthFW
      = t.buffer.lengthFW - max 0 (desLength c + t.buffer.lengthFW - (c.SIZE : Int)) ∧
    (t.refillBW c f).1.buffer.playIdx = t.buffer.playIdx ∧
    (t.refillBW c f).1.buffer.posAt0 = t.buffer.posAt0 ∧
    (t.refillBW c f).1.buffer.data
      = (fillFrames c t.buffer (t.buffer.playIdx - desLength c)
          (f.readf (t.buffer.posAt0 + (t.buffer.playIdx - desLength c))
            (desLength c - t.buffer.lengthBW))
          (desLength c - t.buffer.lengthBW)).data := by
  have hd := desLength_eq c hS hA
  unfold CountInv at hinv
  have hn : toUInt32 (desLength c - t.buffer.lengthBW)
      = desLength c - t.buffer.lengthBW := by
    unfold toUInt32; omega
  have hstart : toInt32 (t.buffer.playIdx - t.buffer.lengthBW
      - (desLength c - t.buffer.lengthBW)) = t.buffer.playIdx - desLength c := by
    unfold toInt32; omega
  have hov : toInt32 (t.buffer.lengthFW + (t.buffer.lengthBW
      + (desLength c - t.buffer.lengthBW)) - (c.SIZE : Int))
      = desLength c + t.buffer.lengthFW - (c.SIZE : Int) := by
    unfold toInt32; omega
  unfold TapeBuffer.refillBW
  simp only
  rw [if_pos htrig]
  simp only [hn, hstart, fillFrames_lengthFW, fillFrames_lengthBW, hov]
  split_ifs with h2
  · simp only [fillFrames_playIdx, fillFrames_posAt0]
    refine ⟨trivial, trivial, by omega, by omega, trivial, trivial, trivial⟩
  · simp only [fillFrames_lengthFW, fillFrames_lengthBW, fillFrames_playIdx,
      fillFrames_posAt0]
    refine ⟨trivial, trivial, by omega, by omega, trivial, trivial, trivial⟩

/-- A seek on an empty window leaves the window empty. -/
theorem movePlaypointAbs_empty (c : Config) (t : TapeBuffer) (newPos : Int)
    (hf : t.buffer.lengthFW = 0) (hb : t.buffer.lengthBW = 0) :
    (t.movePlaypointAbs c newPos).buffer.lengthFW = 0 ∧
    (t.movePlaypointAbs c newPos).buffer.lengthBW = 0 := by
  unfold TapeBuffer.movePlaypointAbs
  simp only [hf, hb]
  split_ifs <;> first | exact ⟨rfl, rfl⟩ | (simp only; omega)

/-- The counts after a forward refill step that fires. -/
theorem refillFW_lengths (c : Config) (f : SndFile) (t : TapeBuffer)
    (hS : c.SIZE < 2147483648) (hA : c.sizeofAudioFrame < 2147483648)
    (hinv : CountInv c t)
    (htrig : t.buffer.lengthFW < desLength c - (c.MIN_READ_SIZE : Int)) :
    (t.refillFW c f).1.buffer.lengthFW = desLength c ∧
    (t.refillFW c f).1.buffer.lengthBW
      = t.buffer.lengthBW - max 0 (desLength c + t.buffer.lengthBW - (c.SIZE : Int)) := by
  have hd := desLength_eq c hS hA
  unfold CountInv at hinv
  have hn : toUInt32 (desLength c - t.buffer.lengthFW)
      = desLength c - t.buffer.lengthFW := by
    unfold toUInt32; omega
  have hov : toInt32 (t.buffer.lengthFW + (desLength c - t.buffer.lengthFW)
      + t.buffer.lengthBW - (c.SIZE : Int))
      = desLength c + t.buffer.lengthBW - (c.SIZE : Int) := by
    unfold toInt32; omega
  unfold TapeBuffer.refillFW
  simp only
  rw [if_pos htrig]
  simp only [hn, fillFrames_lengthFW, fillFrames_lengthBW, hov]
  split_ifs with h2 <;> simp only [fillFrames_lengthFW, fillFrames_lengthBW] <;>
    exact ⟨by omega, by omega⟩

/-- The counts after a backward refill step that fires. -/
theorem refillBW_lengths (c : Config) (f : SndFile) (t : TapeBuffer)
    (hS : c.SIZE < 2147483648) (hA : c.sizeofAudioFrame < 2147483648)
    (hinv : CountInv c t)
    (htrig : t.buffer.lengthBW < desLength c - (c.MIN_READ_SIZE : Int)) :
    (t.refillBW c f).1.buffer.lengthBW = desLength c ∧
    (t.refillBW c f).1.buffer.lengthFW
      = t.buffer.lengthFW - max 0 (desLength c + t.buffer.lengthFW - (c.SIZE : Int)) := by
  have hd := desLength_eq c hS hA
  unfold CountInv at hinv
  have hn : toUInt32 (desLength c - t.buffer.lengthBW)
      = desLength c - t.buffer.lengthBW := by
    unfold toUInt32; omega
  have hov : toInt32 (t.buffer.lengthFW + (t.buffer.lengthBW
      + (desLength c - t.buffer.lengthBW)) - (c.SIZE : Int))
      = desLength c + t.buffer.lengthFW - (c.SIZE : Int) := by
    unfold toInt32; omega
  unfold TapeBuffer.refillBW
  simp only
  rw [if_pos htrig]
  simp only [hn, fillFrames_lengthFW, fillFrames_lengthBW, hov]
  split_ifs with h2 <;> simp only [fillFrames_lengthFW, fillFrames_lengthBW] <;>
    exact ⟨by omega, by omega⟩

/-- A refill step that does not fire returns the state as it is and reads
nothing. -/
theorem refillFW_idle (c : Config) (f : SndFile) (t : TapeBuffer)
    (h : desLength c - (c.MIN_READ_SIZE : Int) ≤ t.buffer.lengthFW) :
    t.refillFW c f = (t, []) := by
  unfold TapeBuffer.refillFW
  simp only
  rw [if_neg (by omega)]

theorem refillBW_idle (c : Config) (f : SndFile) (t : TapeBuffer)
    (h : desLength c - (c.MIN_READ_SIZE : Int) ≤ t.buffer.lengthBW) :
    t.refillBW c f = (t, []) := by
  unfold TapeBuffer.refillBW
  simp only
  rw [if_neg (by omega)]

/-- One worker cycle on an empty window, when the refill threshold is positive:
both counts end at the desired window length. -/
theorem workerCycle_empty_lengths (c : Config) (f : SndFile) (t : TapeBuffer)
    (hS : c.SIZE < 2147483648) (hA : c.sizeofAudioFrame < 2147483648)
    (hf : t.buffer.lengthFW = 0) (hb : t.buffer.lengthBW = 0)
    (htrig : 0 < desLength c - (c.MIN_READ_SIZE : Int)) :
    (t.workerCycle c f).1.buffer.lengthFW = desLength c ∧
    (t.workerCycle c f).1.buffer.lengthBW = desLength c := by
  have hd := desLength_eq c hS hA
  have hinv : CountInv c t := by
    unfold CountInv; omega
  have h1 := refillFW_lengths c f t hS hA hinv (by omega)
  have hinv1 := refillFW_countInv c hS hA f t hinv
  have h2 := refillBW_lengths c f (t.refillFW c f).1 hS hA hinv1 (by omega)
  unfold TapeBuffer.workerCycle
  simp only
  omega

/-- The position fields after a seek. -/
theorem movePlaypointAbs_position (c : Config) (t : TapeBuffer) (newPos : Int) :
    (t.movePlaypointAbs c newPos).playPoint = max 0 newPos ∧
    PosInv (t.movePlaypointAbs c newPos) := by
  unfold PosInv TapeBuffer.movePlaypointAbs
  simp only
  constructor
  · split_ifs <;> omega
  · omega

/-- A seek leaves `playIdx` a ring slot. -/
theorem movePlaypointAbs_playIdx_range (c : Config) (t : TapeBuffer) (newPos : Int)
    (hS0 : 0 < c.SIZE) (hi0 : 0 ≤ t.buffer.playIdx)
    (hi1 : t.buffer.playIdx < (c.SIZE : Int)) :
    0 ≤ (t.movePlaypointAbs c newPos).buffer.playIdx ∧
    (t.movePlaypointAbs c newPos).buffer.playIdx < (c.SIZE : Int) := by
  unfold TapeBuffer.movePlaypointAbs
  simp only
  split_ifs
  · exact wrapIdx_range c hS0 _
  · exact ⟨hi0, hi1⟩
  · exact wrapIdx_range c hS0 _
  · exact ⟨hi0, hi1⟩

/-- One worker cycle on an empty window: afterwards every slot counted in the
forward window holds the frame of the file at its absolute position, and the
position fields are unchanged. -/
theorem workerCycle_empty_data (c : Config) (f : SndFile) (t : TapeBuffer)
    (hS : c.SIZE < 2147483648) (hA : c.sizeofAudioFrame < 2147483648)
    (hf : t.buffer.lengthFW = 0) (hb : t.buffer.lengthBW = 0)
    (hi0 : 0 ≤ t.buffer.playIdx) (hi1 : t.buffer.playIdx < (c.SIZE : Int)) :
    (t.workerCycle c f).1.playPoint = t.playPoint ∧
    (t.workerCycle c f).1.buffer.playIdx = t.buffer.playIdx ∧
    (t.workerCycle c f).1.buffer.posAt0 = t.buffer.posAt0 ∧
    0 ≤ (t.workerCycle c f).1.buffer.lengthFW ∧
    (t.workerCycle c f).1.buffer.lengthFW < 2147483648 ∧
    ∀ i : Nat, (i : Int) < (t.workerCycle c f).1.buffer.lengthFW →
      (t.workerCycle c f).1.buffer.data (wrapIdx c (t.buffer.playIdx + (i : Int)))
        = f.frameAt (t.buffer.posAt0 + t.buffer.playIdx + (i : Int)) := by
  have hd := desLength_eq c hS hA
  have hinv : CountInv c t := by
    unfold CountInv; omega
  by_cases htrig : 0 < desLength c - (c.MIN_READ_SIZE : Int)
  · obtain ⟨m, hm⟩ := Int.eq_ofNat_of_zero_le (show 0 ≤ desLength c by omega)
    have hmS : 2 * m ≤ c.SIZE := by omega
    have h1 := refillFW_triggered c f t hS hA hinv hi0 (by omega) (by omega)
    have hinv1 := refillFW_countInv c hS hA f t hinv
    have hbw1 : (t.refillFW c f).1.buffer.lengthBW = 0 := by
      rw [h1.2.2.2.1]; omega
    have h2 := refillBW_triggered c f (t.refillFW c f).1 hS hA hinv1
      (by rw [h1.2.2.2.2.1]; exact hi0) (by rw [h1.2.2.2.2.1]; omega)
      (by rw [hbw1]; omega)
    have hfw2 : (t.workerCycle c f).1.buffer.lengthFW = (m : Int) := by
      unfold TapeBuffer.workerCycle
      simp only
      rw [h2.2.2.2.1, h1.2.2.1]
      omega
    have hdata1 := h1.2.2.2.2.2.2
    rw [hf, add_zero, sub_zero, hm] at hdata1
    have hdata2 := h2.2.2.2.2.2.2
    rw [hbw1, h1.2.2.2.2.1, h1.2.2.2.2.2.1, sub_zero, hm] at hdata2
    refine ⟨?_, ?_, ?_, by omega, by omega, ?_⟩
    · unfold TapeBuffer.workerCycle
      simp only
      rw [h2.2.1, h1.2.1]
    · unfold TapeBuffer.workerCycle
      simp only
      rw [h2.2.2.2.2.1, h1.2.2.2.2.1]
    · unfold TapeBuffer.workerCycle
      simp only
      rw [h2.2.2.2.2.2.1, h1.2.2.2.2.2.1]
    · intro i hi
      rw [hfw2] at hi
      have hdata : (t.workerCycle c f).1.buffer.data
          = (fillFrames c (t.refillFW c f).1.buffer (t.buffer.playIdx - (m : Int))
              (f.readf (t.buffer.posAt0 + (t.buffer.playIdx - (m : Int))) (m : Int))
              (m : Int)).data := by
        unfold TapeBuffer.workerCycle
        simp only
        exact hdata2
      rw [hdata, fillFrames_data_other c _ _ _ m _
        (fun j hj => wrapIdx_ne c _ _ (by omega) (by omega))]
      rw [hdata1, fillFrames_data_written c _ _ _ m (by omega) i (by omega)]
      rw [frameOfBuf_readf f _ _ i (by omega)]
  · have e1 := refillFW_idle c f t (by omega)
    have e2 := refillBW_idle c f t (by omega)
    have e : t.workerCycle c f = (t, []) := by
      unfold TapeBuffer.workerCycle
      simp only [e1, e2, List.append_nil]
    rw [e]
    refine ⟨rfl, rfl, rfl, by simp only; omega, by simp only; omega, ?_⟩
    intro i hi
    simp only at hi
    omega

/-- The result of `readFW` when the request is cached and the new position fits
the type `int`: the samples read and the state afterwards. -/
theorem readFW_forward (c : Config) (t : TapeBuffer) (n track : Int)
    (hn0 : 0 ≤ n) (hn : n ≤ t.buffer.lengthFW) (hbw : 0 ≤ t.buffer.lengthBW)
    (hp0 : 0 ≤ t.playPoint) (hov : t.playPoint + n < 2147483648) :
    t.readFW c n track =
      ((List.range n.toNat).map (fun (i : Nat) =>
          (t.buffer.get c (t.buffer.playIdx + (i : Int))).get (toUInt32 (track - 1))),
       { playPoint := t.playPoint + n
         buffer := { t.buffer with
           playIdx := wrapIdx c (t.playPoint + n - t.buffer.posAt0)
           lengthBW := t.buffer.lengthBW + n
           lengthFW := t.buffer.lengthFW - n
           posAt0 := t.playPoint + n - wrapIdx c (t.playPoint + n - t.buffer.posAt0) } }) := by
  have hc1 : toUInt32 (min t.buffer.lengthFW (toInt32 n)) = n := by
    rw [readFW_count _ _ hn0 (by omega) (by omega)]; omega
  have hmove := movePlaypointRel_forward c t n hn0 hn (by omega) hp0 hov
  unfold TapeBuffer.readFW
  simp only [hc1, hmove]

/-- Wrapping an index that was already wrapped. -/
theorem wrapIdx_add_wrapIdx (c : Config) (x k : Int) :
    wrapIdx c (wrapIdx c x + k) = wrapIdx c (x + k) := by
  unfold wrapIdx
  exact Int.emod_add_emod x _ k

/-- `readBW` returns the channel `track - 1` of the frames `readAllBW` returns, and
both end in the same state, for every request. -/
theorem readBW_eq_map_readAllBW (c : Config) (t : TapeBuffer) (nframes track : Int) :
    (t.readBW c nframes track).1
      = (t.readAllBW c nframes).1.map
          (fun (a : AudioFrame) => a.get (toUInt32 (track - 1))) ∧
    (t.readBW c nframes track).2 = (t.readAllBW c nframes).2 := by
  unfold TapeBuffer.readBW TapeBuffer.readAllBW
  simp only [List.map_map]
  exact ⟨rfl, trivial⟩

/-- `readFW` returns the channel `track - 1` of the frames `readAllFW` returns, and
both end in the same state, when the request fits the type `int`. -/
theorem readFW_eq_map_readAllFW (c : Config) (t : TapeBuffer) (nframes track : Int)
    (h0 : 0 ≤ nframes) (h1 : nframes < 2147483648)
    (hf0 : 0 ≤ t.buffer.lengthFW) (hf1 : t.buffer.lengthFW < 2147483648) :
    (t.readFW c nframes track).1
      = (t.readAllFW c nframes).1.map
          (fun (a : AudioFrame) => a.get (toUInt32 (track - 1))) ∧
    (t.readFW c nframes track).2 = (t.readAllFW c nframes).2 := by
  unfold TapeBuffer.readFW TapeBuffer.readAllFW
  simp only [List.map_map, readFW_count _ _ h0 h1 hf0, readAll_count _ _ hf0 hf1]
  exact ⟨rfl, trivial⟩

/-- Subtracting the wrapped part of an index changes a position by a multiple of
the capacity, so it selects the same ring slots. -/
theorem wrapIdx_sub_shift (c : Config) (a p x : Int) :
    wrapIdx c (a - (p + x - wrapIdx c x)) = wrapIdx c (a - p) := by
  unfold wrapIdx
  have h := Int.emod_add_ediv x (c.SIZE : Int)
  have e : a - (p + x - x % (c.SIZE : Int))
      = (a - p) + (c.SIZE : Int) * (-(x / (c.SIZE : Int))) := by
    rw [mul_neg]
    omega
  rw [e, Int.add_mul_emod_self_left]

/-- A ring slot is its own wrapped index. -/
theorem wrapIdx_of_slot (c : Config) (k : Int) (h0 : 0 ≤ k) (h1 : k < (c.SIZE : Int)) :
    wrapIdx c k = k := by
  unfold wrapIdx
  exact Int.emod_eq_of_lt h0 h1

/-! ## Claims -/

/-- C1: in every state reachable from an initial state (play position 0, both
counts 0) by any sequence of seeks, reads and worker refill cycles, both counts
are non-negative and their sum is at most the capacity `SIZE`.  The constants
`SIZE` and `sizeof(AudioFrame)` are taken to fit the type `int`. -/
theorem reachable_count_invariant (c : Config) (hS : c.SIZE < 2147483648)
    (hA : c.sizeofAudioFrame < 2147483648) (t : TapeBuffer) (h : Reachable c t) :
    0 ≤ t.buffer.lengthFW ∧ 0 ≤ t.buffer.lengthBW ∧
      t.buffer.lengthFW + t.buffer.lengthBW ≤ (c.SIZE : Int) := by
  have key : CountInv c t := by
    induction h with
    | init t hp hf hb =>
      unfold CountInv
      rw [hf, hb]
      omega
    | movePlaypointAbs t newPos _ ih => exact movePlaypointAbs_countInv c t newPos ih
    | movePlaypointRel t time _ ih => exact movePlaypointRel_countInv c t time ih
    | goTo t pos _ ih => exact movePlaypointAbs_countInv c t _ ih
    | readFW t nframes track _ ih => exact movePlaypointRel_countInv c t _ ih
    | readAllFW t nframes _ ih => exact movePlaypointRel_countInv c t _ ih
    | readBW t nframes track _ ih => exact movePlaypointRel_countInv c t _ ih
    | readAllBW t nframes _ ih => exact movePlaypointRel_countInv c t _ ih
    | refillFW t f _ ih => exact refillFW_countInv c hS hA f t ih
    | refillBW t f _ ih => exact refillBW_countInv c hS hA f t ih
    | worker t f _ ih => exact workerCycle_countInv c hS hA f t ih
  exact key

/-- Witness for C1: the state after seeking to 0, one worker cycle on the
example file, a forward read of 100 frames and a backward read of 7. -/
theorem reachable_count_invariant_witness :
    (exampleConfig.SIZE < 2147483648 ∧ exampleConfig.sizeofAudioFrame < 2147483648) ∧
    (0 ≤ sampleRun.buffer.lengthFW ∧ 0 ≤ sampleRun.buffer.lengthBW ∧
      sampleRun.buffer.lengthFW + sampleRun.buffer.lengthBW
        ≤ (exampleConfig.SIZE : Int)) :=
  ⟨⟨by decide, by decide⟩,
   reachable_count_invariant exampleConfig (by decide) (by decide) sampleRun
    (Reachable.readBW _ 7 2 (Reachable.readFW _ 100 1 (Reachable.worker _ exampleFile
      (Reachable.movePlaypointAbs _ 0 (Reachable.init initialState rfl rfl rfl)))))⟩

/-- C2: after `movePlaypointAbs`, from every state and for every requested
position, `posAt0 + playIdx = playPoint`; the same holds after
`movePlaypointRel`, `goTo` and each of the four reads, which all end in
`movePlaypointAbs`. -/
theorem seek_position_invariant (c : Config) (t : TapeBuffer)
    (newPos time pos nframes track : Int) :
    PosInv (t.movePlaypointAbs c newPos) ∧
    PosInv (t.movePlaypointRel c time) ∧
    PosInv (t.goTo c pos) ∧
    PosInv (t.readFW c nframes track).2 ∧
    PosInv (t.readAllFW c nframes).2 ∧
    PosInv (t.readBW c nframes track).2 ∧
    PosInv (t.readAllBW c nframes).2 := by
  have key : ∀ p : Int, PosInv (t.movePlaypointAbs c p) := by
    intro p
    unfold PosInv TapeBuffer.movePlaypointAbs
    simp only
    omega
  exact ⟨key _, key _, key _, key _, key _, key _, key _⟩

/-- C3: the fast path of `movePlaypointAbs`.  From a state with
`posAt0 + playIdx = playPoint` whose play position fits the type `int`, a seek to a
non-negative `int` position `newPos` with `-lengthBW ≤ newPos - playPoint ≤ lengthFW`
sets `playIdx` to `(playIdx + delta) mod SIZE`, `lengthBW` to `lengthBW + delta`,
`lengthFW` to `lengthFW - delta` (the sum is unchanged) and leaves every ring slot
as it was. -/
theorem movePlaypointAbs_fast_path (c : Config) (t : TapeBuffer) (newPos : Int)
    (hinv : PosInv t) (hp0 : 0 ≤ t.playPoint) (hp1 : t.playPoint < 2147483648)
    (hn0 : 0 ≤ newPos) (hn1 : newPos < 2147483648)
    (hlo : -t.buffer.lengthBW ≤ newPos - t.playPoint)
    (hhi : newPos - t.playPoint ≤ t.buffer.lengthFW) :
    (t.movePlaypointAbs c newPos).buffer.playIdx
        = (t.buffer.playIdx + (newPos - t.playPoint)) % (c.SIZE : Int) ∧
    (t.movePlaypointAbs c newPos).buffer.lengthBW
        = t.buffer.lengthBW + (newPos - t.playPoint) ∧
    (t.movePlaypointAbs c newPos).buffer.lengthFW
        = t.buffer.lengthFW - (newPos - t.playPoint) ∧
    (t.movePlaypointAbs c newPos).buffer.lengthFW
        + (t.movePlaypointAbs c newPos).buffer.lengthBW
        = t.buffer.lengthFW + t.buffer.lengthBW ∧
    (t.movePlaypointAbs c newPos).buffer.data = t.buffer.data := by
  unfold PosInv at hinv
  have hdiff : toInt32 ((if newPos < 0 then 0 else newPos) - toUInt32 t.playPoint)
      = newPos - t.playPoint := by
    unfold toInt32 toUInt32
    split_ifs <;> omega
  have hidx : (if newPos < 0 then 0 else newPos) - t.buffer.posAt0
      = t.buffer.playIdx + (newPos - t.playPoint) := by
    split_ifs <;> omega
  unfold TapeBuffer.movePlaypointAbs
  simp only [hdiff, hidx]
  rw [if_pos ⟨hhi, hlo⟩]
  simp only [wrapIdx]
  refine ⟨trivial, trivial, trivial, ?_, trivial⟩
  omega

/-- Witness for C3, the example of the specification: with `lengthFW = 100`, a
forward seek by 50 (from position 110 to 160) gives `lengthFW = 50` and
`lengthBW` increased by 50. -/
theorem movePlaypointAbs_fast_path_witness :
    (windowState.movePlaypointAbs exampleConfig 160).buffer.playIdx
        = (windowState.buffer.playIdx + (160 - windowState.playPoint))
            % (exampleConfig.SIZE : Int) ∧
    (windowState.movePlaypointAbs exampleConfig 160).buffer.lengthBW
        = windowState.buffer.lengthBW + (160 - windowState.playPoint) ∧
    (windowState.movePlaypointAbs exampleConfig 160).buffer.lengthFW
        = windowState.buffer.lengthFW - (160 - windowState.playPoint) ∧
    (windowState.movePlaypointAbs exampleConfig 160).buffer.lengthFW
        + (windowState.movePlaypointAbs exampleConfig 160).buffer.lengthBW
        = windowState.buffer.lengthFW + windowState.buffer.lengthBW ∧
    (windowState.movePlaypointAbs exampleConfig 160).buffer.data
        = windowState.buffer.data :=
  movePlaypointAbs_fast_path exampleConfig windowState 160 rfl (by decide)
    (by decide) (by decide) (by decide) (by decide) (by decide)

/-- C4, counterexample: from play position 5 with 10 frames cached on each side,
the requested position -20 lies 25 frames behind the play position, more than
`lengthBW = 10`; the request is first clamped to 0, which is inside the window,
and the seek leaves `lengthFW = 15` and `lengthBW = 5`. -/
theorem movePlaypointAbs_out_of_window_counterexample :
    (-20 : Int) - nearStartState.playPoint < -nearStartState.buffer.lengthBW ∧
    (nearStartState.movePlaypointAbs exampleConfig (-20)).buffer.lengthFW = 15 ∧
    (nearStartState.movePlaypointAbs exampleConfig (-20)).buffer.lengthBW = 5 ∧
    ¬ ((nearStartState.movePlaypointAbs exampleConfig (-20)).buffer.lengthFW = 0 ∧
       (nearStartState.movePlaypointAbs exampleConfig (-20)).buffer.lengthBW = 0) := by
  decide

/-- C4, amended: from a state whose play position fits the type `int`, and for
every requested `int` position, if the position after clamping to 0 lies more than
`lengthFW` frames ahead of the play position or more than `lengthBW` frames behind
it, `movePlaypointAbs` leaves `lengthFW = 0` and `lengthBW = 0`. -/
theorem movePlaypointAbs_slow_path (c : Config) (t : TapeBuffer) (newPos : Int)
    (hp0 : 0 ≤ t.playPoint) (hp1 : t.playPoint < 2147483648)
    (hn1 : newPos < 2147483648)
    (hout : t.buffer.lengthFW < max 0 newPos - t.playPoint ∨
      max 0 newPos - t.playPoint < -t.buffer.lengthBW) :
    (t.movePlaypointAbs c newPos).buffer.lengthFW = 0 ∧
    (t.movePlaypointAbs c newPos).buffer.lengthBW = 0 := by
  have hdiff : toInt32 ((if newPos < 0 then 0 else newPos) - toUInt32 t.playPoint)
      = max 0 newPos - t.playPoint := by
    unfold toInt32 toUInt32
    split_ifs <;> omega
  unfold TapeBuffer.movePlaypointAbs
  simp only [hdiff]
  rw [if_neg (by omega)]
  exact ⟨rfl, rfl⟩

/-- Witness for C4: from play position 5 with 10 frames cached on each side, a
seek to position 16 (11 frames ahead) discards the window. -/
theorem movePlaypointAbs_slow_path_witness :
    (nearStartState.movePlaypointAbs exampleConfig 16).buffer.lengthFW = 0 ∧
    (nearStartState.movePlaypointAbs exampleConfig 16).buffer.lengthBW = 0 :=
  movePlaypointAbs_slow_path exampleConfig nearStartState 16 (by decide) (by decide)
    (by decide) (by decide)

/-- C5, counterexample: at play position `2^31 - 2` with 10 frames cached ahead,
`readFW(5, 1)` passes `playPoint + 5`, which exceeds the range of the `int`
parameter of `movePlaypointAbs`; the position is clamped to 0, the window is
discarded, and the play position ends at 0 instead of `playPoint + 5`. -/
theorem readFW_consumes_counterexample :
    5 ≤ lateState.buffer.lengthFW ∧
    (lateState.readFW exampleConfig 5 1).2.playPoint = 0 ∧
    (lateState.readFW exampleConfig 5 1).2.buffer.lengthFW = 0 ∧
    (lateState.readFW exampleConfig 5 1).2.buffer.lengthBW = 0 ∧
    ¬ ((lateState.readFW exampleConfig 5 1).2.playPoint = lateState.playPoint + 5 ∧
       (lateState.readFW exampleConfig 5 1).2.buffer.lengthFW
          = lateState.buffer.lengthFW - 5 ∧
       (lateState.readFW exampleConfig 5 1).2.buffer.lengthBW
          = lateState.buffer.lengthBW + 5) := by
  decide

/-- C5, amended: from a state with `lengthFW ≥ n`, `lengthBW ≥ 0` and a play
position such that `playPoint + n` still fits the type `int`, and for a track
`1 ≤ track ≤ nTracks`, `readFW(n, track)` returns exactly `n` samples, the `i`-th
being channel `track - 1` of the ring frame in slot `playIdx + i`; afterwards
`playPoint` has increased by `n`, `lengthFW` has decreased by `n` and `lengthBW`
has increased by `n`.  `readAllFW(n)` returns the `n` whole frames of the same
slots and ends in the same state. -/
theorem readFW_consumes (c : Config) (t : TapeBuffer) (n track : Int)
    (hn0 : 0 ≤ n) (hn : n ≤ t.buffer.lengthFW) (hfw : t.buffer.lengthFW < 2147483648)
    (hbw : 0 ≤ t.buffer.lengthBW)
    (hp0 : 0 ≤ t.playPoint) (hov : t.playPoint + n < 2147483648)
    (ht1 : 1 ≤ track) (ht2 : track ≤ (nTracks : Int)) :
    (t.readFW c n track).1.length = n.toNat ∧
    (t.readFW c n track).1 = (List.range n.toNat).map (fun (i : Nat) =>
        (t.buffer.get c (t.buffer.playIdx + (i : Int))).get (track - 1)) ∧
    (t.readFW c n track).2.playPoint = t.playPoint + n ∧
    (t.readFW c n track).2.buffer.lengthFW = t.buffer.lengthFW - n ∧
    (t.readFW c n track).2.buffer.lengthBW = t.buffer.lengthBW + n ∧
    (t.readAllFW c n).1.length = n.toNat ∧
    (t.readAllFW c n).1 = (List.range n.toNat).map (fun (i : Nat) =>
        t.buffer.get c (t.buffer.playIdx + (i : Int))) ∧
    (t.readAllFW c n).2 = (t.readFW c n track).2 := by
  have hc1 : toUInt32 (min t.buffer.lengthFW (toInt32 n)) = n := by
    rw [readFW_count _ _ hn0 (by omega) (by omega)]; omega
  have hc2 : (if n > toUInt32 t.buffer.lengthFW then toUInt32 t.buffer.lengthFW else n)
      = n := by
    rw [readAll_count _ _ (by omega) hfw]; omega
  have htr : toUInt32 (track - 1) = track - 1 := by
    unfold nTracks at ht2; unfold toUInt32; omega
  have hmove := movePlaypointRel_forward c t n hn0 hn (by omega) hp0 hov
  unfold TapeBuffer.readFW TapeBuffer.readAllFW
  simp only [hc1, hc2, htr, hmove, List.length_map, List.length_range]
  exact ⟨trivial, trivial, trivial, trivial, trivial, trivial, trivial, trivial⟩

/-- Witness for C5: with 100 frames cached ahead of position 110, `readFW(3, 2)`
returns three samples and moves the play position to 113. -/
theorem readFW_consumes_witness :
    (windowState.readFW exampleConfig 3 2).1 = [110, 111, 112] ∧
    (windowState.readFW exampleConfig 3 2).2.playPoint = 113 ∧
    (windowState.readAllFW exampleConfig 3).1
      = [rampData 110, rampData 111, rampData 112] := by
  have h := readFW_consumes exampleConfig windowState 3 2 (by decide) (by decide)
    (by decide) (by decide) (by decide) (by decide) (by decide) (by decide)
  refine ⟨?_, ?_, ?_⟩
  · rw [h.2.1]; decide
  · rw [h.2.2.1]; decide
  · rw [h.2.2.2.2.2.2.1]; decide

/-- C6, failing input: with 100 frames cached ahead, `readFW` asked for `2^31`
frames returns `2^31` samples, the requested count, because `(int) nframes` is
negative and `std::min` picks it; `readAllFW`, which compares in `uint`, returns
the 100 cached frames for the same request. -/
theorem readFW_short_read_failing :
    windowState.buffer.lengthFW = 100 ∧
    (windowState.readFW exampleConfig 2147483648 1).1.length = 2147483648 ∧
    (windowState.readAllFW exampleConfig 2147483648).1.length = 100 := by
  unfold TapeBuffer.readFW TapeBuffer.readAllFW
  simp only [List.length_map, List.length_range]
  decide

/-- C7, failing input: at play position 110, with slot `k` of the ring holding
the frame of position `k` and 10 frames cached behind, `readBW(3, 1)` returns the
samples of positions 110, 109, 108: element 0 is the sample at the play position,
not the one before it, and the sample of position 107 is not returned.
`readAllBW(3)` returns the frames of the same three positions. -/
theorem readBW_order_failing :
    3 ≤ windowState.buffer.lengthBW ∧
    (windowState.readBW exampleConfig 3 1).1 = [110, 109, 108] ∧
    (windowState.readAllBW exampleConfig 3).1
      = [rampData 110, rampData 109, rampData 108] ∧
    (List.range 3).map (fun (i : Nat) =>
      (windowState.buffer.get exampleConfig
        (windowState.playPoint - 1 - (i : Int) - windowState.buffer.posAt0)).get 0)
      = [109, 108, 107] := by
  decide

/-- C8: the backing file is a sequence of frames read by absolute position, with
silence outside its range.  After `movePlaypointAbs(pos)`, `pos ≥ 0`, on an empty
window and one worker cycle, the ring frame for every absolute position `pos + i`
with `i < lengthFW` is the frame of the file at `pos + i`; hence `readAllFW`
returns the frames of the file from `pos` on, in order, `readFW` returns their
samples of the requested channel, and every position past the last frame of the
file reads as silence. -/
theorem seek_refill_loads_file (c : Config) (f : SndFile) (t : TapeBuffer) (pos : Int)
    (hS : c.SIZE < 2147483648) (hA : c.sizeofAudioFrame < 2147483648)
    (hf : t.buffer.lengthFW = 0) (hb : t.buffer.lengthBW = 0)
    (hi0 : 0 ≤ t.buffer.playIdx) (hi1 : t.buffer.playIdx < (c.SIZE : Int))
    (hq0 : 0 ≤ pos) :
    (∀ i : Nat,
      (i : Int) < ((t.movePlaypointAbs c pos).workerCycle c f).1.buffer.lengthFW →
      ((t.movePlaypointAbs c pos).workerCycle c f).1.buffer.get c
          (pos + (i : Int) - ((t.movePlaypointAbs c pos).workerCycle c f).1.buffer.posAt0)
        = f.frameAt (pos + (i : Int))) ∧
    (∀ n : Int,
      (((t.movePlaypointAbs c pos).workerCycle c f).1.readAllFW c n).1
        = (List.range (min n
              ((t.movePlaypointAbs c pos).workerCycle c f).1.buffer.lengthFW).toNat).map
            (fun (i : Nat) => f.frameAt (pos + (i : Int)))) ∧
    (∀ n track : Int, 0 ≤ n → n < 2147483648 → 1 ≤ track → track ≤ (nTracks : Int) →
      (((t.movePlaypointAbs c pos).workerCycle c f).1.readFW c n track).1
        = (List.range (min n
              ((t.movePlaypointAbs c pos).workerCycle c f).1.buffer.lengthFW).toNat).map
            (fun (i : Nat) => (f.frameAt (pos + (i : Int))).get (track - 1))) ∧
    (∀ p : Int, (f.frames.length : Int) ≤ p → f.frameAt p = AudioFrame.silence) := by
  have hS0 : 0 < c.SIZE := by omega
  have he := movePlaypointAbs_empty c t pos hf hb
  have hr := movePlaypointAbs_playIdx_range c t pos hS0 hi0 hi1
  have hp := movePlaypointAbs_position c t pos
  have hw := workerCycle_empty_data c f (t.movePlaypointAbs c pos) hS hA he.1 he.2
    hr.1 hr.2
  have hposinv : (t.movePlaypointAbs c pos).buffer.posAt0
      + (t.movePlaypointAbs c pos).buffer.playIdx = pos := by
    have h1 := hp.2
    unfold PosInv at h1
    rw [h1, hp.1]
    omega
  have hslot : ∀ i : Nat,
      (i : Int) < ((t.movePlaypointAbs c pos).workerCycle c f).1.buffer.lengthFW →
      ((t.movePlaypointAbs c pos).workerCycle c f).1.buffer.get c
          (((t.movePlaypointAbs c pos).workerCycle c f).1.buffer.playIdx + (i : Int))
        = f.frameAt (pos + (i : Int)) := by
    intro i hi
    unfold RingBuffer.get
    rw [hw.2.1, hw.2.2.2.2.2 i hi, hposinv]
  refine ⟨?_, ?_, ?_, fun p hp => frameAt_outside f p (Or.inr hp)⟩
  · intro i hi
    rw [← hslot i hi, hw.2.2.1, hw.2.1]
    congr 1
    omega
  · intro n
    unfold TapeBuffer.readAllFW
    simp only
    rw [readAll_count _ _ hw.2.2.2.1 hw.2.2.2.2.1]
    apply List.map_congr_left
    intro i hi
    rw [List.mem_range] at hi
    exact hslot i (by omega)
  · intro n track hn0 hn1 ht1 ht2
    have htr : toUInt32 (track - 1) = track - 1 := by
      unfold nTracks at ht2; unfold toUInt32; omega
    unfold TapeBuffer.readFW
    simp only
    rw [readFW_count _ _ hn0 hn1 hw.2.2.2.1, htr]
    apply List.map_congr_left
    intro i hi
    rw [List.mem_range] at hi
    rw [hslot i (by omega)]

set_option maxRecDepth 100000 in
/-- Witness for C8.  The scenario of the specification: on a file of 2000 frames,
after seeking to position 0 and one worker cycle, a forward read of 100 frames
returns the first 100 frames of the file.  Zero fill: on the three-frame example
file, after seeking to position 1 and one worker cycle, a forward read of four
frames returns the last two frames of the file followed by two frames of
silence. -/
theorem seek_refill_loads_file_witness :
    (((initialState.movePlaypointAbs exampleConfig 0).workerCycle exampleConfig
        longFile).1.readAllFW exampleConfig 100).1
      = longFile.frames.take 100 ∧
    (((initialState.movePlaypointAbs exampleConfig 1).workerCycle exampleConfig
        exampleFile).1.readAllFW exampleConfig 4).1
      = [⟨5, 6, 7, 8⟩, ⟨9, 10, 11, 12⟩, AudioFrame.silence, AudioFrame.silence] := by
  have h0 := (seek_refill_loads_file exampleConfig longFile initialState 0
    (by decide) (by decide) rfl rfl (by decide) (by decide) (by decide)).2.1 100
  have hl0 := (workerCycle_empty_lengths exampleConfig longFile
    (initialState.movePlaypointAbs exampleConfig 0) (by decide) (by decide)
    (movePlaypointAbs_empty exampleConfig initialState 0 rfl rfl).1
    (movePlaypointAbs_empty exampleConfig initialState 0 rfl rfl).2 (by decide)).1
  have h := (seek_refill_loads_file exampleConfig exampleFile initialState 1
    (by decide) (by decide) rfl rfl (by decide) (by decide) (by decide)).2.1 4
  have hl := (workerCycle_empty_lengths exampleConfig exampleFile
    (initialState.movePlaypointAbs exampleConfig 1) (by decide) (by decide)
    (movePlaypointAbs_empty exampleConfig initialState 1 rfl rfl).1
    (movePlaypointAbs_empty exampleConfig initialState 1 rfl rfl).2 (by decide)).1
  rw [hl0] at h0
  rw [hl] at h
  rw [h0, h]
  constructor <;> decide

/-- C9: the two refill steps of the worker loop, from a state that satisfies the
count invariant and `posAt0 + playIdx = playPoint` and whose `playIdx` is a ring
slot, with `desiredWindow = SIZE / 2 - sizeof(AudioFrame)`.  When
`lengthFW < desiredWindow - MIN_READ_SIZE` the forward step reads
`desiredWindow - lengthFW` frames from position `playPoint + lengthFW`, leaves
`lengthFW = desiredWindow` and `lengthBW` reduced by
`max 0 (desiredWindow + lengthBW - SIZE)`; otherwise it changes nothing.  The
backward step mirrors it, reading from position `playPoint - desiredWindow` and
reducing `lengthFW` on overflow. -/
theorem refill_steps (c : Config) (f : SndFile) (t : TapeBuffer)
    (hS : c.SIZE < 2147483648) (hA : c.sizeofAudioFrame < 2147483648)
    (hinv : CountInv c t) (hpos : PosInv t)
    (hi0 : 0 ≤ t.buffer.playIdx) (hi1 : t.buffer.playIdx < (c.SIZE : Int)) :
    (t.buffer.lengthFW
        < ((c.SIZE / 2 : Nat) : Int) - (c.sizeofAudioFrame : Int) - (c.MIN_READ_SIZE : Int) →
      (t.refillFW c f).2 = [⟨t.playPoint + t.buffer.lengthFW,
        ((c.SIZE / 2 : Nat) : Int) - (c.sizeofAudioFrame : Int) - t.buffer.lengthFW⟩] ∧
      (t.refillFW c f).1.buffer.lengthFW
        = ((c.SIZE / 2 : Nat) : Int) - (c.sizeofAudioFrame : Int) ∧
      (t.refillFW c f).1.buffer.lengthBW
        = t.buffer.lengthBW - max 0 (((c.SIZE / 2 : Nat) : Int) - (c.sizeofAudioFrame : Int)
            + t.buffer.lengthBW - (c.SIZE : Int))) ∧
    (((c.SIZE / 2 : Nat) : Int) - (c.sizeofAudioFrame : Int) - (c.MIN_READ_SIZE : Int)
        ≤ t.buffer.lengthFW →
      t.refillFW c f = (t, [])) ∧
    (t.buffer.lengthBW
        < ((c.SIZE / 2 : Nat) : Int) - (c.sizeofAudioFrame : Int) - (c.MIN_READ_SIZE : Int) →
      (t.refillBW c f).2 = [⟨t.playPoint
          - (((c.SIZE / 2 : Nat) : Int) - (c.sizeofAudioFrame : Int)),
        ((c.SIZE / 2 : Nat) : Int) - (c.sizeofAudioFrame : Int) - t.buffer.lengthBW⟩] ∧
      (t.refillBW c f).1.buffer.lengthBW
        = ((c.SIZE / 2 : Nat) : Int) - (c.sizeofAudioFrame : Int) ∧
      (t.refillBW c f).1.buffer.lengthFW
        = t.buffer.lengthFW - max 0 (((c.SIZE / 2 : Nat) : Int) - (c.sizeofAudioFrame : Int)
            + t.buffer.lengthFW - (c.SIZE : Int))) ∧
    (((c.SIZE / 2 : Nat) : Int) - (c.sizeofAudioFrame : Int) - (c.MIN_READ_SIZE : Int)
        ≤ t.buffer.lengthBW →
      t.refillBW c f = (t, [])) := by
  have hd := desLength_eq c hS hA
  unfold PosInv at hpos
  rw [← hd]
  refine ⟨fun h => ?_, fun h => refillFW_idle c f t h, fun h => ?_,
    fun h => refillBW_idle c f t h⟩
  · have k := refillFW_triggered c f t hS hA hinv hi0 (by omega) h
    refine ⟨?_, k.2.2.1, k.2.2.2.1⟩
    rw [k.1]
    have e : t.buffer.posAt0 + (t.buffer.playIdx + t.buffer.lengthFW)
        = t.playPoint + t.buffer.lengthFW := by omega
    rw [e]
  · have k := refillBW_triggered c f t hS hA hinv hi0 (by omega) h
    refine ⟨?_, k.2.2.1, k.2.2.2.1⟩
    rw [k.1]
    have e : t.buffer.posAt0 + (t.buffer.playIdx - desLength c)
        = t.playPoint - desLength c := by omega
    rw [e]

/-- Witness for C9: the state at position 110 with 100 frames ahead and 10
behind, in a ring of 1000 slots with headroom 64 and low-water mark 32. -/
theorem refill_steps_witness :
    (windowState.refillFW exampleConfig exampleFile).2 = [⟨210, 336⟩] ∧
    (windowState.refillFW exampleConfig exampleFile).1.buffer.lengthFW = 436 ∧
    (windowState.refillBW exampleConfig exampleFile).2 = [⟨-326, 426⟩] ∧
    (windowState.refillBW exampleConfig exampleFile).1.buffer.lengthBW = 436 := by
  have h := refill_steps exampleConfig exampleFile windowState (by decide) (by decide)
    (by unfold CountInv; decide) rfl (by decide) (by decide)
  have h1 := h.1 (by decide)
  have h3 := h.2.2.1 (by decide)
  exact ⟨h1.1, h1.2.1, h3.1, h3.2.1⟩

/-- C10, counterexample: with capacity 1000 and headroom 64 (low-water mark 32),
one worker cycle after seeking to position 0 on an empty window leaves
`lengthFW = 436`, which is `1000 / 2 - 64`, and not 468. -/
theorem worker_cycle_scenario_counterexample :
    ((initialState.movePlaypointAbs exampleConfig 0).workerCycle exampleConfig
        exampleFile).1.buffer.lengthFW = 436 ∧
    ¬ (((initialState.movePlaypointAbs exampleConfig 0).workerCycle exampleConfig
        exampleFile).1.buffer.lengthFW = 468) := by
  have h := workerCycle_empty_lengths exampleConfig exampleFile
    (initialState.movePlaypointAbs exampleConfig 0) (by decide) (by decide)
    (movePlaypointAbs_empty exampleConfig initialState 0 rfl rfl).1
    (movePlaypointAbs_empty exampleConfig initialState 0 rfl rfl).2 (by decide)
  have hd : desLength exampleConfig = 436 := by decide
  rw [h.1, hd]
  decide

/-- C10, amended: with capacity 1000, headroom 64 and a low-water mark below 436,
one worker cycle after seeking to position 0 on an empty window leaves
`lengthFW` at the halved capacity minus the headroom, which is 436, and leaves
`lengthFW + lengthBW ≤ 1000`. -/
theorem worker_cycle_scenario (c : Config) (f : SndFile) (t : TapeBuffer)
    (hS : c.SIZE = 1000) (hA : c.sizeofAudioFrame = 64) (hM : c.MIN_READ_SIZE < 436)
    (hf : t.buffer.lengthFW = 0) (hb : t.buffer.lengthBW = 0) :
    ((t.movePlaypointAbs c 0).workerCycle c f).1.buffer.lengthFW
        = ((c.SIZE / 2 : Nat) : Int) - (c.sizeofAudioFrame : Int) ∧
    ((t.movePlaypointAbs c 0).workerCycle c f).1.buffer.lengthFW = 436 ∧
    ((t.movePlaypointAbs c 0).workerCycle c f).1.buffer.lengthFW
      + ((t.movePlaypointAbs c 0).workerCycle c f).1.buffer.lengthBW ≤ 1000 := by
  have hd := desLength_eq c (by omega) (by omega)
  have h := workerCycle_empty_lengths c f (t.movePlaypointAbs c 0) (by omega) (by omega)
    (movePlaypointAbs_empty c t 0 hf hb).1 (movePlaypointAbs_empty c t 0 hf hb).2
    (by omega)
  rw [h.1, h.2, hd, hS, hA]
  decide

/-- Witness for C10: the initial state, low-water mark 32. -/
theorem worker_cycle_scenario_witness :
    ((initialState.movePlaypointAbs exampleConfig 0).workerCycle exampleConfig
        exampleFile).1.buffer.lengthFW = 436 ∧
    ((initialState.movePlaypointAbs exampleConfig 0).workerCycle exampleConfig
        exampleFile).1.buffer.lengthFW
      + ((initialState.movePlaypointAbs exampleConfig 0).workerCycle exampleConfig
        exampleFile).1.buffer.lengthBW ≤ 1000 :=
  ⟨(worker_cycle_scenario exampleConfig exampleFile initialState rfl rfl (by decide)
      rfl rfl).2.1,
   (worker_cycle_scenario exampleConfig exampleFile initialState rfl rfl (by decide)
      rfl rfl).2.2⟩

/-- C11, failing input: with 100 frames cached ahead of position 110, `readFW`
asked for `2^31` frames returns `2^31` samples and ends at play position 0 with
the window discarded, while `readAllFW` given the same request returns 100 frames
(so 100 samples per channel) and ends at play position 210. -/
theorem readFW_readAllFW_failing :
    CountInv exampleConfig windowState ∧
    (windowState.readFW exampleConfig 2147483648 1).1.length = 2147483648 ∧
    ((windowState.readAllFW exampleConfig 2147483648).1.map
      (fun (a : AudioFrame) => a.get 0)).length = 100 ∧
    (windowState.readFW exampleConfig 2147483648 1).2.playPoint = 0 ∧
    (windowState.readAllFW exampleConfig 2147483648).2.playPoint = 210 := by
  unfold CountInv TapeBuffer.readFW TapeBuffer.readAllFW
  simp only [List.length_map, List.length_range]
  decide

/-- C12, counterexample: at play position `2^31 - 2`, `movePlaypointRel(5)` ends
at play position 0 and not at `max 0 (playPoint + 5)`; from the initial state,
`goTo(2^31)` ends at play position 0 and not at `2^31`.  In both cases the target
does not fit the `int` parameter of `movePlaypointAbs`, turns negative and is
clamped to 0. -/
theorem movePlaypointRel_goTo_counterexample :
    (lateState.movePlaypointRel exampleConfig 5).playPoint = 0 ∧
    ¬ ((lateState.movePlaypointRel exampleConfig 5).playPoint
        = max 0 (lateState.playPoint + 5)) ∧
    (initialState.goTo exampleConfig 2147483648).playPoint = 0 ∧
    ¬ ((initialState.goTo exampleConfig 2147483648).playPoint = 2147483648) := by
  decide

/-- C12, amended: from a state with `playPoint ≥ 0`, for every `int` value `delta`
with `playPoint + delta < 2^31`, `movePlaypointRel(delta)` produces the state of
`movePlaypointAbs(playPoint + delta)` and the resulting play position is
`max 0 (playPoint + delta)`; for every position `0 ≤ pos < 2^31`, `goTo(pos)`
produces the state of `movePlaypointAbs(pos)` and the resulting play position is
`pos`. -/
theorem movePlaypointRel_goTo (c : Config) (t : TapeBuffer) (delta pos : Int)
    (hp0 : 0 ≤ t.playPoint) (hd0 : -2147483648 ≤ delta)
    (hov : t.playPoint + delta < 2147483648)
    (hq0 : 0 ≤ pos) (hq1 : pos < 2147483648) :
    t.movePlaypointRel c delta = t.movePlaypointAbs c (t.playPoint + delta) ∧
    (t.movePlaypointRel c delta).playPoint = max 0 (t.playPoint + delta) ∧
    t.goTo c pos = t.movePlaypointAbs c pos ∧
    (t.goTo c pos).playPoint = pos := by
  have h1 : toInt32 (t.playPoint + delta) = t.playPoint + delta := by
    unfold toInt32; omega
  have h2 : toInt32 pos = pos := by
    unfold toInt32; omega
  unfold TapeBuffer.movePlaypointRel TapeBuffer.goTo
  rw [h1, h2]
  refine ⟨rfl, (movePlaypointAbs_position c t _).1, rfl, ?_⟩
  rw [(movePlaypointAbs_position c t pos).1]
  omega

/-- Witness for C12: from play position 110, `movePlaypointRel(-200)` ends at
position 0 and `goTo(500)` ends at position 500. -/
theorem movePlaypointRel_goTo_witness :
    (windowState.movePlaypointRel exampleConfig (-200)).playPoint = 0 ∧
    (windowState.goTo exampleConfig 500).playPoint = 500 := by
  have h := movePlaypointRel_goTo exampleConfig windowState (-200) 500 (by decide)
    (by decide) (by decide) (by decide) (by decide)
  refine ⟨?_, h.2.2.2⟩
  rw [h.2.1]
  decide

/-- C13: `writeFW` and `writeBW` return 0 and leave the state as it is, for every
state, data vector and track: `playPoint`, `playIdx`, `posAt0`, `lengthFW`,
`lengthBW`, `notWritten` and every ring slot are unchanged. -/
theorem write_is_noop (t : TapeBuffer) (data : List Sample) (track : Int) :
    (t.writeFW data track).1 = 0 ∧ (t.writeBW data track).1 = 0 ∧
    (t.writeFW data track).2 = t ∧ (t.writeBW data track).2 = t ∧
    (t.writeFW data track).2.playPoint = t.playPoint ∧
    (t.writeFW data track).2.buffer.playIdx = t.buffer.playIdx ∧
    (t.writeFW data track).2.buffer.posAt0 = t.buffer.posAt0 ∧
    (t.writeFW data track).2.buffer.lengthFW = t.buffer.lengthFW ∧
    (t.writeFW data track).2.buffer.lengthBW = t.buffer.lengthBW ∧
    (t.writeFW data track).2.buffer.notWritten = t.buffer.notWritten ∧
    (∀ k : Int, (t.writeFW data track).2.buffer.data k = t.buffer.data k) ∧
    (t.writeBW data track).2.playPoint = t.playPoint ∧
    (t.writeBW data track).2.buffer.playIdx = t.buffer.playIdx ∧
    (t.writeBW data track).2.buffer.posAt0 = t.buffer.posAt0 ∧
    (t.writeBW data track).2.buffer.lengthFW = t.buffer.lengthFW ∧
    (t.writeBW data track).2.buffer.lengthBW = t.buffer.lengthBW ∧
    (t.writeBW data track).2.buffer.notWritten = t.buffer.notWritten ∧
    (∀ k : Int, (t.writeBW data track).2.buffer.data k = t.buffer.data k) := by
  unfold TapeBuffer.writeFW TapeBuffer.writeBW
  exact ⟨rfl, rfl, rfl, rfl, rfl, rfl, rfl, rfl, rfl, rfl, fun _ => rfl,
    rfl, rfl, rfl, rfl, rfl, rfl, fun _ => rfl⟩

/-- C14, counterexample: at play position `2^31 - 2` with 10 frames cached ahead,
`readFW(5, 1)` returns 5 samples, but its target position `2^31 + 3` does not fit
the type `int`, so the window is discarded and the following `readFW(5, 1)`
returns nothing: the two results together hold 5 samples, while a single
`readFW(10, 1)` returns 10. -/
theorem readFW_twice_counterexample :
    5 + 5 ≤ lateState.buffer.lengthFW ∧
    (lateState.readFW exampleConfig 5 1).1 = [646, 647, 648, 649, 650] ∧
    ((lateState.readFW exampleConfig 5 1).2.readFW exampleConfig 5 1).1 = [] ∧
    (lateState.readFW exampleConfig 10 1).1
      = [646, 647, 648, 649, 650, 651, 652, 653, 654, 655] ∧
    ¬ ((lateState.readFW exampleConfig 5 1).1
        ++ ((lateState.readFW exampleConfig 5 1).2.readFW exampleConfig 5 1).1
        = (lateState.readFW exampleConfig 10 1).1) := by
  decide

/-- C14, amended: from a state with `posAt0 + playIdx = playPoint`,
`lengthFW ≥ a + b`, `lengthBW ≥ 0` and `playPoint + a + b < 2^31`, `readFW(a, track)`
followed by `readFW(b, track)` returns two sequences whose concatenation is the
result of a single `readFW(a + b, track)`, both runs end in the same state, and
the second read returns the samples of the slots `playIdx + a + i`, `i < b`, that
is of the positions `playPoint + a .. playPoint + a + b - 1`. -/
theorem readFW_twice (c : Config) (t : TapeBuffer) (a b track : Int)
    (ha0 : 0 ≤ a) (hb0 : 0 ≤ b) (hab : a + b ≤ t.buffer.lengthFW)
    (hbw : 0 ≤ t.buffer.lengthBW) (hpos : PosInv t)
    (hp0 : 0 ≤ t.playPoint) (hov : t.playPoint + a + b < 2147483648) :
    (t.readFW c a track).1 ++ ((t.readFW c a track).2.readFW c b track).1
      = (t.readFW c (a + b) track).1 ∧
    ((t.readFW c a track).2.readFW c b track).2 = (t.readFW c (a + b) track).2 ∧
    ((t.readFW c a track).2.readFW c b track).1
      = (List.range b.toNat).map (fun (i : Nat) =>
          (t.buffer.get c (t.buffer.playIdx + a + (i : Int))).get
            (toUInt32 (track - 1))) := by
  unfold PosInv at hpos
  have e1 := readFW_forward c t a track ha0 (by omega) hbw hp0 (by omega)
  have e3 := readFW_forward c t (a + b) track (by omega) hab hbw hp0 (by omega)
  rw [e1, e3]
  simp only
  have e2 := readFW_forward c
    { playPoint := t.playPoint + a
      buffer := { t.buffer with
        playIdx := wrapIdx c (t.playPoint + a - t.buffer.posAt0)
        lengthBW := t.buffer.lengthBW + a
        lengthFW := t.buffer.lengthFW - a
        posAt0 := t.playPoint + a - wrapIdx c (t.playPoint + a - t.buffer.posAt0) } }
    b track hb0 (by simp only; omega) (by simp only; omega) (by simp only; omega)
    (by simp only; omega)
  rw [e2]
  simp only
  have hslot : ∀ i : Nat,
      wrapIdx c (wrapIdx c (t.playPoint + a - t.buffer.posAt0) + (i : Int))
        = wrapIdx c (t.buffer.playIdx + a + (i : Int)) := by
    intro i
    rw [wrapIdx_add_wrapIdx]
    congr 1
    omega
  have hsecond : (List.range b.toNat).map (fun (i : Nat) =>
        (RingBuffer.get c
          { t.buffer with
            playIdx := wrapIdx c (t.playPoint + a - t.buffer.posAt0)
            lengthBW := t.buffer.lengthBW + a
            lengthFW := t.buffer.lengthFW - a
            posAt0 := t.playPoint + a - wrapIdx c (t.playPoint + a - t.buffer.posAt0) }
          (wrapIdx c (t.playPoint + a - t.buffer.posAt0) + (i : Int))).get
            (toUInt32 (track - 1)))
      = (List.range b.toNat).map (fun (i : Nat) =>
          (t.buffer.get c (t.buffer.playIdx + a + (i : Int))).get
            (toUInt32 (track - 1))) := by
    apply List.map_congr_left
    intro i _
    unfold RingBuffer.get
    simp only
    rw [hslot i]
  refine ⟨?_, ?_, hsecond⟩
  · rw [hsecond]
    have hsplit : (a + b).toNat = a.toNat + b.toNat := by omega
    rw [hsplit, List.range_add, List.map_append, List.map_map]
    congr 1
    apply List.map_congr_left
    intro i _
    simp only [Function.comp]
    have hcast : t.buffer.playIdx + a + (i : Int)
        = t.buffer.playIdx + ((a.toNat + i : Nat) : Int) := by
      push_cast
      omega
    rw [hcast]
  · have hidx : wrapIdx c (t.playPoint + a + b
          - (t.playPoint + a - wrapIdx c (t.playPoint + a - t.buffer.posAt0)))
        = wrapIdx c (t.playPoint + (a + b) - t.buffer.posAt0) := by
      have e : t.playPoint + a + b
          - (t.playPoint + a - wrapIdx c (t.playPoint + a - t.buffer.posAt0))
          = wrapIdx c (t.playPoint + a - t.buffer.posAt0) + b := by omega
      rw [e, wrapIdx_add_wrapIdx]
      congr 1
      omega
    rw [hidx]
    have h1 : t.playPoint + a + b = t.playPoint + (a + b) := by omega
    have h2 : t.buffer.lengthBW + a + b = t.buffer.lengthBW + (a + b) := by omega
    have h3 : t.buffer.lengthFW - a - b = t.buffer.lengthFW - (a + b) := by omega
    rw [h1, h2, h3]

/-- Witness for C14: with 100 frames cached ahead of position 110, `readFW(2, 1)`
followed by `readFW(3, 1)` against a single `readFW(5, 1)`. -/
theorem readFW_twice_witness :
    (windowState.readFW exampleConfig 2 1).1
        ++ ((windowState.readFW exampleConfig 2 1).2.readFW exampleConfig 3 1).1
      = (windowState.readFW exampleConfig 5 1).1 ∧
    ((windowState.readFW exampleConfig 2 1).2.readFW exampleConfig 3 1).1
      = [112, 113, 114] := by
  have h := readFW_twice exampleConfig windowState 2 3 1 (by decide) (by decide)
    (by decide) (by decide) rfl (by decide) (by decide)
  refine ⟨h.1, ?_⟩
  rw [h.2.2]
  decide

/-- C15: from a state that satisfies the count invariant and whose `playIdx` is a
ring slot, with `desiredWindow = SIZE / 2 - sizeof(AudioFrame)`.  The slots a
forward refill step writes (`playIdx + i`, `lengthFW ≤ i < desiredWindow`) differ
from the slots of the backward window as it stands after the step (`playIdx - j`,
`1 ≤ j ≤ lengthBW'`), and the step leaves every frame of that backward window and
of the forward window it started from as it was.  Symmetrically the slots a
backward refill step writes (`playIdx - j`, `lengthBW < j ≤ desiredWindow`) differ
from the slots of the forward window after the step, and the step leaves every
frame of that forward window and of the backward window it started from as it
was. -/
theorem refill_writes_disjoint (c : Config) (f : SndFile) (t : TapeBuffer)
    (hS : c.SIZE < 2147483648) (hA : c.sizeofAudioFrame < 2147483648)
    (hinv : CountInv c t)
    (hi0 : 0 ≤ t.buffer.playIdx) (hi1 : t.buffer.playIdx < (c.SIZE : Int)) :
    (t.buffer.lengthFW
        < ((c.SIZE / 2 : Nat) : Int) - (c.sizeofAudioFrame : Int) - (c.MIN_READ_SIZE : Int) →
      ∀ i j : Int, t.buffer.lengthFW ≤ i →
        i < ((c.SIZE / 2 : Nat) : Int) - (c.sizeofAudioFrame : Int) →
        1 ≤ j → j ≤ (t.refillFW c f).1.buffer.lengthBW →
        wrapIdx c (t.buffer.playIdx + i) ≠ wrapIdx c (t.buffer.playIdx - j)) ∧
    (∀ j : Int, 1 ≤ j → j ≤ (t.refillFW c f).1.buffer.lengthBW →
      (t.refillFW c f).1.buffer.get c (t.buffer.playIdx - j)
        = t.buffer.get c (t.buffer.playIdx - j)) ∧
    (∀ i : Int, 0 ≤ i → i < t.buffer.lengthFW →
      (t.refillFW c f).1.buffer.get c (t.buffer.playIdx + i)
        = t.buffer.get c (t.buffer.playIdx + i)) ∧
    (t.buffer.lengthBW
        < ((c.SIZE / 2 : Nat) : Int) - (c.sizeofAudioFrame : Int) - (c.MIN_READ_SIZE : Int) →
      ∀ i j : Int, t.buffer.lengthBW < j →
        j ≤ ((c.SIZE / 2 : Nat) : Int) - (c.sizeofAudioFrame : Int) →
        0 ≤ i → i < (t.refillBW c f).1.buffer.lengthFW →
        wrapIdx c (t.buffer.playIdx - j) ≠ wrapIdx c (t.buffer.playIdx + i)) ∧
    (∀ i : Int, 0 ≤ i → i < (t.refillBW c f).1.buffer.lengthFW →
      (t.refillBW c f).1.buffer.get c (t.buffer.playIdx + i)
        = t.buffer.get c (t.buffer.playIdx + i)) ∧
    (∀ j : Int, 1 ≤ j → j ≤ t.buffer.lengthBW →
      (t.refillBW c f).1.buffer.get c (t.buffer.playIdx - j)
        = t.buffer.get c (t.buffer.playIdx - j)) := by
  have hd := desLength_eq c hS hA
  have hinv' := hinv
  unfold CountInv at hinv'
  rw [← hd]
  have hfw : ∀ x : Int,
      (t.buffer.lengthFW < desLength c - (c.MIN_READ_SIZE : Int) →
        ∀ k : Int, 0 ≤ k → k < desLength c - t.buffer.lengthFW →
          wrapIdx c (t.buffer.playIdx + t.buffer.lengthFW + k) ≠ wrapIdx c x) →
      (t.refillFW c f).1.buffer.get c x = t.buffer.get c x := by
    intro x hx
    by_cases htrig : t.buffer.lengthFW < desLength c - (c.MIN_READ_SIZE : Int)
    · have h1 := refillFW_triggered c f t hS hA hinv hi0 (by omega) htrig
      obtain ⟨m, hm⟩ := Int.eq_ofNat_of_zero_le
        (show 0 ≤ desLength c - t.buffer.lengthFW by omega)
      have hdata := h1.2.2.2.2.2.2
      rw [hm] at hdata
      unfold RingBuffer.get
      rw [hdata, fillFrames_data_other c _ _ _ m _
        (fun k hk => hx htrig (k : Int) (by omega) (by omega))]
    · rw [refillFW_idle c f t (by omega)]
  have hbw : ∀ x : Int,
      (t.buffer.lengthBW < desLength c - (c.MIN_READ_SIZE : Int) →
        ∀ k : Int, 0 ≤ k → k < desLength c - t.buffer.lengthBW →
          wrapIdx c (t.buffer.playIdx - desLength c + k) ≠ wrapIdx c x) →
      (t.refillBW c f).1.buffer.get c x = t.buffer.get c x := by
    intro x hx
    by_cases htrig : t.buffer.lengthBW < desLength c - (c.MIN_READ_SIZE : Int)
    · have h1 := refillBW_triggered c f t hS hA hinv hi0 (by omega) htrig
      obtain ⟨m, hm⟩ := Int.eq_ofNat_of_zero_le
        (show 0 ≤ desLength c - t.buffer.lengthBW by omega)
      have hdata := h1.2.2.2.2.2.2
      rw [hm] at hdata
      unfold RingBuffer.get
      rw [hdata, fillFrames_data_other c _ _ _ m _
        (fun k hk => hx htrig (k : Int) (by omega) (by omega))]
    · rw [refillBW_idle c f t (by omega)]
  refine ⟨?_, ?_, ?_, ?_, ?_, ?_⟩
  · intro htrig i j hi1' hi2 hj1 hj2
    have hl := (refillFW_lengths c f t hS hA hinv htrig).2
    rw [hl] at hj2
    exact (wrapIdx_ne c _ _ (by omega) (by omega)).symm
  · intro j hj1 hj2
    apply hfw
    intro htrig k hk0 hk1
    have hl := (refillFW_lengths c f t hS hA hinv htrig).2
    rw [hl] at hj2
    exact (wrapIdx_ne c _ _ (by omega) (by omega)).symm
  · intro i hi1' hi2
    apply hfw
    intro htrig k hk0 hk1
    exact (wrapIdx_ne c _ _ (by omega) (by omega)).symm
  · intro htrig i j hj1 hj2 hi1' hi2
    have hl := (refillBW_lengths c f t hS hA hinv htrig).2
    rw [hl] at hi2
    exact wrapIdx_ne c _ _ (by omega) (by omega)
  · intro i hi1' hi2
    apply hbw
    intro htrig k hk0 hk1
    have hl := (refillBW_lengths c f t hS hA hinv htrig).2
    rw [hl] at hi2
    exact wrapIdx_ne c _ _ (by omega) (by omega)
  · intro j hj1 hj2
    apply hbw
    intro htrig k hk0 hk1
    exact wrapIdx_ne c _ _ (by omega) (by omega)

/-- Witness for C15: the state at position 110 with 100 frames ahead and 10
behind; the forward step writes the slots 210 .. 545 and leaves the frame of slot
109 (the last frame of the backward window) and of slot 110 as they were. -/
theorem refill_writes_disjoint_witness :
    (windowState.refillFW exampleConfig exampleFile).1.buffer.get exampleConfig
        (windowState.buffer.playIdx - 1) = rampData 109 ∧
    (windowState.refillFW exampleConfig exampleFile).1.buffer.get exampleConfig
        (windowState.buffer.playIdx + 0) = rampData 110 ∧
    (windowState.refillBW exampleConfig exampleFile).1.buffer.get exampleConfig
        (windowState.buffer.playIdx - 10) = rampData 100 := by
  have h := refill_writes_disjoint exampleConfig exampleFile windowState (by decide)
    (by decide) (by unfold CountInv; decide) (by decide) (by decide)
  have hl : (windowState.refillFW exampleConfig exampleFile).1.buffer.lengthBW = 10 :=
    ((refillFW_lengths exampleConfig exampleFile windowState (by decide) (by decide)
      (by unfold CountInv; decide) (by decide)).2).trans (by decide)
  refine ⟨?_, ?_, ?_⟩
  · rw [h.2.1 1 (by decide) (by rw [hl]; decide)]
    decide
  · rw [h.2.2.1 0 (by decide) (by decide)]
    decide
  · rw [h.2.2.2.2.2 10 (by decide) (by decide)]
    decide

/-- C16: a fast-path seek (`-lengthBW ≤ newPos - playPoint ≤ lengthFW`, target
`newPos ≥ 0`, positions within the range of `int`) changes `posAt0` by a multiple
of the capacity: the new `posAt0` is congruent to the old one modulo `SIZE`, every
absolute position maps to the same ring slot before and after the seek, and the
frame found for every absolute position is the same. -/
theorem fast_seek_keeps_slots (c : Config) (t : TapeBuffer) (newPos : Int)
    (hp0 : 0 ≤ t.playPoint) (hp1 : t.playPoint < 2147483648)
    (hn0 : 0 ≤ newPos) (hn1 : newPos < 2147483648)
    (hlo : -t.buffer.lengthBW ≤ newPos - t.playPoint)
    (hhi : newPos - t.playPoint ≤ t.buffer.lengthFW) :
    (t.movePlaypointAbs c newPos).buffer.posAt0 % (c.SIZE : Int)
      = t.buffer.posAt0 % (c.SIZE : Int) ∧
    (∀ a : Int, wrapIdx c (a - (t.movePlaypointAbs c newPos).buffer.posAt0)
      = wrapIdx c (a - t.buffer.posAt0)) ∧
    (∀ a : Int,
      (t.movePlaypointAbs c newPos).buffer.get c
          (a - (t.movePlaypointAbs c newPos).buffer.posAt0)
        = t.buffer.get c (a - t.buffer.posAt0)) := by
  rw [movePlaypointAbs_inWindow c t newPos hp0 hp1 hn0 hn1 hlo hhi]
  simp only
  have hshift : ∀ a : Int,
      wrapIdx c (a - (newPos - wrapIdx c (newPos - t.buffer.posAt0)))
        = wrapIdx c (a - t.buffer.posAt0) := by
    intro a
    have h := wrapIdx_sub_shift c a t.buffer.posAt0 (newPos - t.buffer.posAt0)
    have e : t.buffer.posAt0 + (newPos - t.buffer.posAt0)
        - wrapIdx c (newPos - t.buffer.posAt0)
        = newPos - wrapIdx c (newPos - t.buffer.posAt0) := by omega
    rw [e] at h
    exact h
  refine ⟨?_, hshift, ?_⟩
  · unfold wrapIdx
    have h := Int.emod_add_ediv (newPos - t.buffer.posAt0) (c.SIZE : Int)
    have e : newPos - (newPos - t.buffer.posAt0) % (c.SIZE : Int)
        = t.buffer.posAt0
          + (c.SIZE : Int) * ((newPos - t.buffer.posAt0) / (c.SIZE : Int)) := by
      omega
    rw [e, Int.add_mul_emod_self_left]
  · intro a
    unfold RingBuffer.get
    simp only
    rw [hshift a]

/-- Witness for C16: the seek from position 110 to 160 in the example window. -/
theorem fast_seek_keeps_slots_witness :
    (windowState.movePlaypointAbs exampleConfig 160).buffer.posAt0
        % (exampleConfig.SIZE : Int)
      = windowState.buffer.posAt0 % (exampleConfig.SIZE : Int) ∧
    (windowState.movePlaypointAbs exampleConfig 160).buffer.get exampleConfig
        (150 - (windowState.movePlaypointAbs exampleConfig 160).buffer.posAt0)
      = windowState.buffer.get exampleConfig (150 - windowState.buffer.posAt0) :=
  ⟨(fast_seek_keeps_slots exampleConfig windowState 160 (by decide) (by decide)
      (by decide) (by decide) (by decide) (by decide)).1,
   (fast_seek_keeps_slots exampleConfig windowState 160 (by decide) (by decide)
      (by decide) (by decide) (by decide) (by decide)).2.2 150⟩

/-- C17, counterexample: at play position `2^31 - 2` in slot 646 of a ring of 1000
slots, with 10 frames cached ahead, `movePlaypointRel(5)` followed by
`movePlaypointRel(-5)` ends at play position 0 with an empty window: the target
`2^31 + 3` of the first move does not fit the type `int` and is clamped to 0. -/
theorem seek_round_trip_counterexample :
    lateState.buffer.playIdx < (exampleConfig.SIZE : Int) ∧
    PosInv lateState ∧
    -lateState.buffer.lengthBW ≤ 5 ∧ 5 ≤ lateState.buffer.lengthFW ∧
    0 ≤ lateState.playPoint + 5 ∧
    ((lateState.movePlaypointRel exampleConfig 5).movePlaypointRel exampleConfig
        (-5)).playPoint = 0 ∧
    ((lateState.movePlaypointRel exampleConfig 5).movePlaypointRel exampleConfig
        (-5)).buffer.lengthFW = 0 ∧
    ¬ (((lateState.movePlaypointRel exampleConfig 5).movePlaypointRel exampleConfig
        (-5)).playPoint = lateState.playPoint) ∧
    ¬ (((lateState.movePlaypointRel exampleConfig 5).movePlaypointRel exampleConfig
        (-5)).buffer.lengthFW = lateState.buffer.lengthFW) := by
  unfold PosInv
  decide

/-- C17, amended: from a state with `0 ≤ playIdx < SIZE`,
`posAt0 + playIdx = playPoint`, both counts non-negative and a play position that
fits the type `int`, and for every `delta` with `-lengthBW ≤ delta ≤ lengthFW`,
`playPoint + delta ≥ 0` and `playPoint + delta < 2^31`, `movePlaypointRel(delta)`
followed by `movePlaypointRel(-delta)` restores `playPoint`, `playIdx`, `posAt0`,
`lengthFW` and `lengthBW` (and leaves the ring data as it was). -/
theorem seek_round_trip (c : Config) (t : TapeBuffer) (delta : Int)
    (hi0 : 0 ≤ t.buffer.playIdx) (hi1 : t.buffer.playIdx < (c.SIZE : Int))
    (hpos : PosInv t) (hf0 : 0 ≤ t.buffer.lengthFW) (hb0 : 0 ≤ t.buffer.lengthBW)
    (hp0 : 0 ≤ t.playPoint) (hp1 : t.playPoint < 2147483648)
    (hlo : -t.buffer.lengthBW ≤ delta) (hhi : delta ≤ t.buffer.lengthFW)
    (hpd : 0 ≤ t.playPoint + delta) (hov : t.playPoint + delta < 2147483648) :
    ((t.movePlaypointRel c delta).movePlaypointRel c (-delta)).playPoint
      = t.playPoint ∧
    ((t.movePlaypointRel c delta).movePlaypointRel c (-delta)).buffer.playIdx
      = t.buffer.playIdx ∧
    ((t.movePlaypointRel c delta).movePlaypointRel c (-delta)).buffer.posAt0
      = t.buffer.posAt0 ∧
    ((t.movePlaypointRel c delta).movePlaypointRel c (-delta)).buffer.lengthFW
      = t.buffer.lengthFW ∧
    ((t.movePlaypointRel c delta).movePlaypointRel c (-delta)).buffer.lengthBW
      = t.buffer.lengthBW ∧
    ((t.movePlaypointRel c delta).movePlaypointRel c (-delta)).buffer.data
      = t.buffer.data := by
  unfold PosInv at hpos
  have h1 : toInt32 (t.playPoint + delta) = t.playPoint + delta := by
    unfold toInt32; omega
  have e1 : t.movePlaypointRel c delta = _ :=
    (congrArg (t.movePlaypointAbs c) h1).trans
      (movePlaypointAbs_inWindow c t (t.playPoint + delta) hp0 hp1 hpd hov
        (by omega) (by omega))
  rw [e1]
  have h2 : toInt32 (t.playPoint + delta + -delta) = t.playPoint := by
    unfold toInt32; omega
  unfold TapeBuffer.movePlaypointRel
  simp only [h2]
  rw [movePlaypointAbs_inWindow c _ t.playPoint (by simp only; omega)
    (by simp only; omega) hp0 hp1 (by simp only; omega) (by simp only; omega)]
  simp only
  have hidx : wrapIdx c (t.playPoint - (t.playPoint + delta
        - wrapIdx c (t.playPoint + delta - t.buffer.posAt0)))
      = t.buffer.playIdx := by
    have e : t.playPoint - (t.playPoint + delta
          - wrapIdx c (t.playPoint + delta - t.buffer.posAt0))
        = wrapIdx c (t.playPoint + delta - t.buffer.posAt0) + (-delta) := by omega
    rw [e, wrapIdx_add_wrapIdx]
    have e2 : t.playPoint + delta - t.buffer.posAt0 + -delta = t.buffer.playIdx := by
      omega
    rw [e2]
    exact wrapIdx_of_slot c _ hi0 hi1
  rw [hidx]
  refine ⟨trivial, rfl, ?_, ?_, ?_, trivial⟩ <;> omega

/-- Witness for C17: from position 110 with 100 frames ahead and 10 behind, a move
by 40 followed by a move by -40. -/
theorem seek_round_trip_witness :
    ((windowState.movePlaypointRel exampleConfig 40).movePlaypointRel exampleConfig
        (-40)).playPoint = windowState.playPoint ∧
    ((windowState.movePlaypointRel exampleConfig 40).movePlaypointRel exampleConfig
        (-40)).buffer.playIdx = windowState.buffer.playIdx ∧
    ((windowState.movePlaypointRel exampleConfig 40).movePlaypointRel exampleConfig
        (-40)).buffer.lengthFW = windowState.buffer.lengthFW :=
  ⟨(seek_round_trip exampleConfig windowState 40 (by decide) (by decide) rfl
      (by decide) (by decide) (by decide) (by decide) (by decide) (by decide)
      (by decide) (by decide)).1,
   (seek_round_trip exampleConfig windowState 40 (by decide) (by decide) rfl
      (by decide) (by decide) (by decide) (by decide) (by decide) (by decide)
      (by decide) (by decide)).2.1,
   (seek_round_trip exampleConfig windowState 40 (by decide) (by decide) rfl
      (by decide) (by decide) (by decide) (by decide) (by decide) (by decide)
      (by decide) (by decide)).2.2.2.1⟩

end OTTO
